import Mathlib

/-!
# TinyCon: transport and power orchestrator, input aggregator

A shallow embedding of `TinyController.cpp` and `GamepadController.cpp`.

Conventions of the embedding

* Every external collaborator (power monitor, link controllers, processor,
  input-bank, motion-sensor and haptic drivers) is represented by the values it
  returns when the code queries it; those values are inputs of the tick.
* `USBControl.IsActive()` and `Bluetooth.IsActive()` are the last value given to
  the matching `SetActive`.
* `int32_t` and `int8_t` quantities are `Int`.  In the orchestrator and in the
  index getters the only arithmetic on them is the subtraction of a count or of
  an elapsed time; the statements below are about non-negative indices, counts
  and elapsed times, where those subtractions stay between zero and their first
  operand, so no wrap-around is involved.  In `MakeHidReport` the arguments
  `HatOffset + n` and `index + 4` are sums computed in `int` and passed as
  `int8_t`: there the conversion `toInt8` is explicit.
* The `uint32_t` button mask is a `Nat` reduced modulo `2 ^ 32` after every
  update; the shift of a button to its bit is taken without sign, bit 31
  included.
* A `float` value is the rational it holds.  The product `GetAxis(n) * 127` is a
  `float` product: its exact value rounded by `roundFloat32`, the IEEE 754
  binary32 rounding to nearest with ties to even.
* Two observation counters that are not fields of the C++ object are carried in
  the state: `ControllerUpdates` counts the calls of `Controller.Update`, and
  `Triggered` counts the executions of the branch of `UpdateSelectButton` that
  logs "Bluetooth Button Triggered".
* The build has USB, BLE and the I2C slave compiled in, and no NeoPixel.
-/

namespace TinyCon

/-! ## Data model of the orchestrator -/

/-- The power source reported by the power monitor. -/
inductive PowerSources where
  | Battery
  | USB
  | I2C
  deriving DecidableEq, Repr

/-- The effects of one indicator channel. -/
inductive LedEffects where
  | Off
  | On
  | Fade
  | Pulse
  | Fixed
  deriving DecidableEq, Repr

/-- One call made on the indicator driver. -/
inductive IndicatorCall where
  | Disable
  | SetBlue (effect : LedEffects)
  | SetRed (effect : LedEffects)
  | Update (deltaTime : Int) (mode : Char)
  deriving DecidableEq, Repr

/-- The state of `TinyController` that `Init` and `Update` read and write. -/
structure TinyController where
  /-- The member `Power.PowerSource`. -/
  PowerSource : PowerSources
  /-- The value of `USBControl.IsActive()`. -/
  USBActive : Bool
  /-- The value of `Bluetooth.IsActive()`. -/
  BluetoothActive : Bool
  /-- The countdown timer of the wireless-toggle button. -/
  BluetoothStartPressedTimeout : Int
  /-- The member `Suspended`. -/
  Suspended : Bool
  /-- Observation: number of calls of `Controller.Update` so far. -/
  ControllerUpdates : Nat
  /-- Observation: number of "Bluetooth Button Triggered" events so far. -/
  Triggered : Nat
  /-- Observation: the calls made on `Indicators` by the latest `UpdateIndicators`. -/
  IndicatorCalls : List IndicatorCall
  deriving DecidableEq, Repr

/-- What the collaborators answer during one call of `Update`. -/
structure Tick where
  /-- The argument `deltaTime`. -/
  deltaTime : Int
  /-- The value of `Processor.GetUSBEnabled()` (line 29). -/
  USBEnabled : Bool
  /-- The value of `Processor.GetBLEEnabled()` (line 29). -/
  BLEEnabled : Bool
  /-- The value of `Bluetooth.IsConnected()` at the start of the tick (lines 30, 32). -/
  BluetoothWasConnected : Bool
  /-- The value of `Controller.GetButton(BluetoothStartButtonIndex)` after the poll (line 40). -/
  SelectButton : Bool
  /-- The value of `Controller.GetUpdatedButton(BluetoothStartButtonIndex)` (line 46). -/
  SelectUpdatedButton : Bool
  /-- The member `Power.PowerSource` after `Power.Update()` (line 52). -/
  NewPowerSource : PowerSources
  /-- The value of `Bluetooth.IsConnected()` in the arbitration (line 84). -/
  BluetoothIsConnected : Bool
  /-- The value of `Bluetooth.IsAdvertising()` in `UpdateIndicators`. -/
  IndicatorAdvertising : Bool
  /-- The value of `Bluetooth.IsConnected()` in `UpdateIndicators`. -/
  IndicatorBluetoothConnected : Bool
  /-- The value of `USBControl.IsConnected()` in `UpdateIndicators`. -/
  IndicatorUSBConnected : Bool
  deriving DecidableEq, Repr

/-! ## Operations of the orchestrator -/

/-- `TinyController::Init`, lines 5 to 25: `source` is what `Power.Init()` leaves
in `Power.PowerSource`; the members `Init` does not assign keep the value they
have in `c`. -/
def Init (c : TinyController) (source : PowerSources) : TinyController :=
  let c1 := { c with PowerSource := source }
  let c2 := { c1 with USBActive := c1.PowerSource == PowerSources.USB }
  { c2 with BluetoothActive := c2.PowerSource == PowerSources.Battery || !c2.USBActive }

/-- `TinyController::UpdateSelectButton`, lines 101 to 113.  The constant
`BluetoothStartButtonTime` is a parameter. -/
def UpdateSelectButton (BluetoothStartButtonTime : Int) (c : TinyController)
    (deltaTime : Int) (selectButton : Bool) : TinyController :=
  if selectButton then
    if c.BluetoothStartPressedTimeout > 0 then
      { c with BluetoothStartPressedTimeout := c.BluetoothStartPressedTimeout - deltaTime }
    else
      let c1 := { c with Triggered := c.Triggered + 1 }
      let c2 := { c1 with BluetoothActive := !c1.BluetoothActive }
      let c3 :=
        if !c2.BluetoothActive && c2.PowerSource == PowerSources.USB then
          { c2 with USBActive := true }
        else c2
      { c3 with BluetoothStartPressedTimeout := BluetoothStartButtonTime }
  else { c with BluetoothStartPressedTimeout := BluetoothStartButtonTime }

/-- `TinyController::Update`, lines 29 to 48: the activity decision, the poll of
the input aggregator and the wireless-toggle button. -/
def UpdateActivity (BluetoothStartButtonTime : Int) (c : TinyController) (t : Tick) :
    TinyController :=
  let i2cNeedsUpdate := c.PowerSource == PowerSources.I2C || (!t.USBEnabled && !t.BLEEnabled)
  let bluetoothNeedsUpdate := !i2cNeedsUpdate && c.BluetoothActive
  let usbNeedsUpdate := !i2cNeedsUpdate && !t.BluetoothWasConnected && c.USBActive
  if i2cNeedsUpdate || bluetoothNeedsUpdate || usbNeedsUpdate then
    let c1 := { c with ControllerUpdates := c.ControllerUpdates + 1 }
    let c2 := UpdateSelectButton BluetoothStartButtonTime c1 t.deltaTime t.SelectButton
    { c2 with Suspended := false }
  else
    let c1 := UpdateSelectButton BluetoothStartButtonTime c t.deltaTime t.SelectUpdatedButton
    { c1 with Suspended := true }

/-- `TinyController::Update`, lines 50 to 96: the power-source arbitration. -/
def UpdatePower (c : TinyController) (t : Tick) : TinyController :=
  let powerWasUsb := c.PowerSource == PowerSources.USB
  let powerWasI2c := c.PowerSource == PowerSources.I2C
  let c := { c with PowerSource := t.NewPowerSource }
  let powerIsUsb := c.PowerSource == PowerSources.USB
  if c.PowerSource == PowerSources.I2C then
    { c with USBActive := false, BluetoothActive := false }
  else if powerWasI2c then
    if powerIsUsb then { c with USBActive := true, BluetoothActive := false }
    else { c with USBActive := false, BluetoothActive := true }
  else if powerIsUsb then
    if !powerWasUsb then { c with USBActive := true, BluetoothActive := false }
    else if t.BluetoothWasConnected && !t.BluetoothIsConnected then
      { c with USBActive := true, BluetoothActive := false }
    else c
  else if powerWasUsb then { c with USBActive := false, BluetoothActive := true }
  else c

/-- `TinyController::UpdateIndicators`, lines 115 to 169, without the NeoPixel
block. -/
def UpdateIndicators (c : TinyController) (t : Tick) : TinyController :=
  if c.Suspended then { c with IndicatorCalls := [IndicatorCall.Disable] }
  else
    let blue :=
      if t.IndicatorAdvertising then LedEffects.Fade
      else if t.IndicatorBluetoothConnected then LedEffects.Pulse
      else LedEffects.Off
    let red :=
      if c.PowerSource == PowerSources.I2C then LedEffects.Pulse
      else if t.IndicatorBluetoothConnected || c.PowerSource != PowerSources.USB then
        LedEffects.Off
      else if t.IndicatorUSBConnected then LedEffects.On
      else LedEffects.Fade
    let mode :=
      if c.PowerSource == PowerSources.I2C then 'I'
      else if t.IndicatorBluetoothConnected then 'B'
      else if t.IndicatorAdvertising then
        if t.IndicatorUSBConnected then 'F' else 'A'
      else if t.IndicatorUSBConnected then 'U'
      else 'D'
    { c with IndicatorCalls :=
        [IndicatorCall.SetBlue blue, IndicatorCall.SetRed red,
         IndicatorCall.Update t.deltaTime mode] }

/-- `TinyController::Update`, lines 27 to 99. -/
def Update (BluetoothStartButtonTime : Int) (c : TinyController) (t : Tick) : TinyController :=
  UpdateIndicators (UpdatePower (UpdateActivity BluetoothStartButtonTime c t) t) t

/-- The state after a sequence of `Update` ticks. -/
def Run (BluetoothStartButtonTime : Int) (c : TinyController) (ticks : List Tick) :
    TinyController :=
  ticks.foldl (Update BluetoothStartButtonTime) c

/-- The state after consecutive calls of `UpdateSelectButton` with the button
held, one call per elapsed time of the list. -/
def HoldSelectButton (BluetoothStartButtonTime : Int) (c : TinyController)
    (deltaTimes : List Int) : TinyController :=
  deltaTimes.foldl (fun s d => UpdateSelectButton BluetoothStartButtonTime s d true) c

/-! ## Data model of the input aggregator -/

/-- One input bank, as the aggregator reads it.  `Axis`, `Buttons` are the reads
`input.Axis[i]`, `input.Buttons[i]` and `UpdatedButton` is
`input.GetUpdatedButton(i)`, at the raw index. -/
structure InputBank where
  /-- The member `Present`. -/
  Present : Bool
  /-- The value of `GetAxisCount()`. -/
  AxisCount : Int
  /-- The value of `GetButtonCount()`. -/
  ButtonCount : Int
  /-- The read `Axis[i]`. -/
  Axis : Int → ℚ
  /-- The read `Buttons[i]`. -/
  Buttons : Int → Bool
  /-- The value of `GetUpdatedButton(i)`. -/
  UpdatedButton : Int → Bool

/-- A span `{data.data() + offset, size}` into the caller's buffer: `offset` is
counted from the first byte of the buffer given to `MakeMpuBuffer`. -/
structure TIFixedSpan where
  /-- Distance of the first byte of the span from the first byte of the buffer. -/
  offset : Nat
  /-- The value of `size()`. -/
  size : Nat
  deriving DecidableEq, Repr

/-- One motion sensor, as `MakeMpuBuffer` reads it: `FillBuffer` gives the number
of bytes the driver writes, and reports, for the span it is handed. -/
structure MotionSensor where
  /-- The member `Present`. -/
  Present : Bool
  /-- The value of `FillBuffer(span)`. -/
  FillBuffer : TIFixedSpan → Nat

/-- The arguments of one `Insert` on a haptic actuator.  `sequence` is the
pointer argument: the bytes of the payload from the pointed one onwards. -/
structure HapticCommand where
  /-- The argument `command`. -/
  command : Nat
  /-- The argument `count`. -/
  count : Nat
  /-- The bytes at the pointer argument `sequence`. -/
  sequence : List (Fin 256)
  /-- The argument `timeoutMs`. -/
  timeout : Nat
  deriving DecidableEq, Repr

/-! ## Operations of the input aggregator -/

/-- `GamepadController::GetAxis`, lines 166 to 172. -/
def GetAxis : List InputBank → Int → ℚ
  | [], _ => 0
  | input :: rest, axisIndex =>
    if axisIndex < input.AxisCount then input.Axis axisIndex
    else GetAxis rest (axisIndex - input.AxisCount)

/-- `GamepadController::GetButton`, lines 174 to 180. -/
def GetButton : List InputBank → Int → Bool
  | [], _ => false
  | input :: rest, buttonIndex =>
    if buttonIndex < input.ButtonCount then input.Buttons buttonIndex
    else GetButton rest (buttonIndex - input.ButtonCount)

/-- `GamepadController::GetUpdatedButton`, lines 182 to 188. -/
def GetUpdatedButton : List InputBank → Int → Bool
  | [], _ => false
  | input :: rest, buttonIndex =>
    if buttonIndex < input.ButtonCount then input.UpdatedButton buttonIndex
    else GetUpdatedButton rest (buttonIndex - input.ButtonCount)

/-- The loop of `GamepadController::MakeMpuBuffer`, lines 142 to 144: from the
running `size` and the spans handed out so far, over the remaining sensors. -/
def MakeMpuBufferLoop (dataSize : Nat) : List MotionSensor → Nat × List TIFixedSpan →
    Nat × List TIFixedSpan
  | [], acc => acc
  | mpu :: rest, (size, handed) =>
    if mpu.Present then
      let span : TIFixedSpan := { offset := size, size := dataSize }
      MakeMpuBufferLoop dataSize rest (size + mpu.FillBuffer span, handed ++ [span])
    else MakeMpuBufferLoop dataSize rest (size, handed)

/-- `GamepadController::MakeMpuBuffer`, lines 140 to 146, for a buffer `data` of
`dataSize` bytes: the value returned. -/
def MakeMpuBuffer (Mpus : List MotionSensor) (dataSize : Nat) : Nat :=
  (MakeMpuBufferLoop dataSize Mpus (0, [])).1

/-- Observation of `GamepadController::MakeMpuBuffer`: the spans handed to
`FillBuffer`, in call order. -/
def MakeMpuBufferSpans (Mpus : List MotionSensor) (dataSize : Nat) : List TIFixedSpan :=
  (MakeMpuBufferLoop dataSize Mpus (0, [])).2

/-- The read `data[i]` of a payload, as a number below 256. -/
def byteAt (data : List (Fin 256)) (i : Nat) : Nat :=
  (data.getD i 0).val

/-- `GamepadController::AddHapticCommand`, lines 148 to 164.  The haptic drivers
are a state `Haptics` of any type together with their operation
`Insert controller cmd`, the call `Haptics[controller].Insert(...)`. -/
def AddHapticCommand {σ : Type} (Insert : Nat → HapticCommand → σ → σ) (Haptics : σ)
    (data : List (Fin 256)) : σ :=
  if data.length > 12 then
    (List.range 8).foldl
      (fun haptics bit =>
        if (byteAt data 0) &&& (1 <<< bit) ≠ 0 then
          let controller := bit % 256
          let command := byteAt data 1
          let count := byteAt data 2
          let sequence := data.drop 3
          let timeout := (((byteAt data 11) <<< 8) ||| (byteAt data 12)) % 65536
          Insert controller
            { command := command, count := count, sequence := sequence, timeout := timeout }
            haptics
        else haptics)
      Haptics
  else Haptics

/-- The haptic drivers that only record the `Insert` calls they receive, with the
index of the actuator addressed, in call order. -/
def recordInsert (controller : Nat) (cmd : HapticCommand) (calls : List (Nat × HapticCommand)) :
    List (Nat × HapticCommand) :=
  calls ++ [(controller, cmd)]

/-! ## Definitions that follow the words of the specification -/

/-- The ordered rule list of the power-source arbitration: from the source before
(`prev`) and after (`cur`) the power monitor's update, the wireless connection
status at the start of the tick and now, and the activation pair
(USB active, wireless active), the new pair. -/
def arbitrationRules (prev cur : PowerSources) (wasConnected isConnected : Bool)
    (flags : Bool × Bool) : Bool × Bool :=
  if cur = PowerSources.I2C then (false, false)
  else if prev = PowerSources.I2C then
    if cur = PowerSources.USB then (true, false) else (false, true)
  else if cur = PowerSources.USB then
    if prev ≠ PowerSources.USB ∨ (wasConnected = true ∧ isConnected = false) then (true, false)
    else flags
  else if prev = PowerSources.USB then (false, true)
  else flags

/-- The activation pair (USB active, wireless active) of a state. -/
def activation (c : TinyController) : Bool × Bool :=
  (c.USBActive, c.BluetoothActive)

/-- The direct-wire bus needs servicing: the power source is DirectWire, or
neither USB nor wireless reporting is enabled. -/
def wireService (c : TinyController) (t : Tick) : Bool :=
  c.PowerSource == PowerSources.I2C || (!t.USBEnabled && !t.BLEEnabled)

/-- Wireless needs servicing: not wire-service, and wireless is active. -/
def wirelessService (c : TinyController) (t : Tick) : Bool :=
  !wireService c t && c.BluetoothActive

/-- USB needs servicing: not wire-service, wireless not connected, USB active. -/
def usbService (c : TinyController) (t : Tick) : Bool :=
  !wireService c t && !t.BluetoothWasConnected && c.USBActive

/-- The axis array of one bank: its first `AxisCount` axis values. -/
def bankAxes (b : InputBank) : List ℚ :=
  (List.range b.AxisCount.toNat).map (fun (i : Nat) => b.Axis (i : Int))

/-- The button array of one bank: its first `ButtonCount` button values. -/
def bankButtons (b : InputBank) : List Bool :=
  (List.range b.ButtonCount.toNat).map (fun (i : Nat) => b.Buttons (i : Int))

/-- The updated-button answers of one bank, for its first `ButtonCount` buttons. -/
def bankUpdatedButtons (b : InputBank) : List Bool :=
  (List.range b.ButtonCount.toNat).map (fun (i : Nat) => b.UpdatedButton (i : Int))

/-- The concatenation of the banks' axis arrays, in bank order. -/
def allAxes : List InputBank → List ℚ
  | [] => []
  | b :: rest => bankAxes b ++ allAxes rest

/-- The concatenation of the banks' button arrays, in bank order. -/
def allButtons : List InputBank → List Bool
  | [] => []
  | b :: rest => bankButtons b ++ allButtons rest

/-- The concatenation of the banks' updated-button answers, in bank order. -/
def allUpdatedButtons : List InputBank → List Bool
  | [] => []
  | b :: rest => bankUpdatedButtons b ++ allUpdatedButtons rest

/-- The summed axis counts of a sequence of banks. -/
def totalAxisCount : List InputBank → Int
  | [] => 0
  | b :: rest => b.AxisCount + totalAxisCount rest

/-- The summed button counts of a sequence of banks. -/
def totalButtonCount : List InputBank → Int
  | [] => 0
  | b :: rest => b.ButtonCount + totalButtonCount rest

/-! ## Example inputs -/

/-- An example state: on battery, wireless active, timer armed at 100. -/
def exampleController : TinyController :=
  { PowerSource := PowerSources.Battery, USBActive := false, BluetoothActive := true,
    BluetoothStartPressedTimeout := 100, Suspended := false, ControllerUpdates := 0,
    Triggered := 0, IndicatorCalls := [] }

/-- An example tick: 10 ms, button released, source USB, nothing connected. -/
def exampleTick : Tick :=
  { deltaTime := 10, USBEnabled := true, BLEEnabled := true, BluetoothWasConnected := false,
    SelectButton := false, SelectUpdatedButton := false, NewPowerSource := PowerSources.USB,
    BluetoothIsConnected := false, IndicatorAdvertising := false,
    IndicatorBluetoothConnected := false, IndicatorUSBConnected := true }

/-- Example banks: a bus bank that is absent, with 2 axes and 1 button, then the
native bank with 1 axis and 2 buttons. -/
def exampleBanks : List InputBank :=
  [ { Present := false, AxisCount := 2, ButtonCount := 1,
      Axis := fun i => if i = 0 then 1 / 2 else -1,
      Buttons := fun _ => true, UpdatedButton := fun _ => false },
    { Present := true, AxisCount := 1, ButtonCount := 2,
      Axis := fun _ => 1 / 4,
      Buttons := fun i => decide (i = 1), UpdatedButton := fun i => decide (i = 0) } ]

/-- Example sensors: two present sensors whose `FillBuffer` writes a 14-byte
record when the span it is handed has room for it, and nothing when it has not. -/
def exampleMpus : List MotionSensor :=
  [ { Present := true, FillBuffer := fun span => if 14 ≤ span.size then 14 else 0 },
    { Present := true, FillBuffer := fun span => if 14 ≤ span.size then 14 else 0 } ]

/-- An example haptic payload of 13 bytes: actuator mask 5 (bits 0 and 2),
command 7, count 3, sequence 1 to 8, timeout bytes 1 and 44. -/
def examplePayload : List (Fin 256) :=
  [5, 7, 3, 1, 2, 3, 4, 5, 6, 7, 8, 1, 44]

/-! ## The common shape of the three index getters, for the proofs -/

/-- The loop shared by `GetAxis`, `GetButton` and `GetUpdatedButton`, over any
count and any read. -/
def resolveRead {α : Type} (count : InputBank → Int) (read : InputBank → Int → α) (dflt : α) :
    List InputBank → Int → α
  | [], _ => dflt
  | input :: rest, index =>
    if index < count input then read input index
    else resolveRead count read dflt rest (index - count input)

/-- The concatenation, in bank order, of the first `count` reads of each bank. -/
def concatReads {α : Type} (count : InputBank → Int) (read : InputBank → Int → α) :
    List InputBank → List α
  | [] => []
  | b :: rest =>
    (List.range (count b).toNat).map (fun (i : Nat) => read b (i : Int)) ++ concatReads count read rest

/-- The summed counts of a sequence of banks. -/
def totalCount (count : InputBank → Int) : List InputBank → Int
  | [] => 0
  | b :: rest => count b + totalCount count rest

/-- The decoded haptic command of the specification: command id = byte 1, repeat
count = byte 2, pattern sequence from byte 3, timeout = byte 11 * 256 + byte 12. -/
def decodedCommand (data : List (Fin 256)) : HapticCommand :=
  { command := byteAt data 1, count := byteAt data 2, sequence := data.drop 3,
    timeout := byteAt data 11 * 256 + byteAt data 12 }


/-! ## The HID report and the polling of the motion sensors -/

/-- The conversion of an integer to `int8_t`, for the arguments `HatOffset + n`
and `index + 4` of `GetButton`. -/
def toInt8 (x : Int) : Int :=
  (x + 128) % 256 - 128

/-- The conversion of a float to an integer type: truncation toward zero. -/
def truncate (q : ℚ) : Int :=
  if 0 ≤ q then ⌊q⌋ else ⌈q⌉

/-- The integer nearest to a rational, the even one of the two at a tie. -/
def roundHalfEven (x : ℚ) : Int :=
  if x - ⌊x⌋ < 1 / 2 then ⌊x⌋
  else if 1 / 2 < x - ⌊x⌋ then ⌊x⌋ + 1
  else if ⌊x⌋ % 2 = 0 then ⌊x⌋
  else ⌊x⌋ + 1

/-- The `float` that holds the result of an operation whose exact value is `q`:
IEEE 754 binary32, round to nearest, ties to even.  With `e` the exponent of
`q`, not below the least normal exponent -126, the result is the multiple of
`2 ^ (e - 23)` nearest to `q` (24 significant bits; below `2 ^ -126` the
subnormal spacing `2 ^ -149`).  Magnitudes from `2 ^ 128` on, which a float
holds as an infinity, are outside the model. -/
def roundFloat32 (q : ℚ) : ℚ :=
  if q = 0 then 0
  else
    let e := max (Int.log 2 |q|) (-126)
    (roundHalfEven (q / 2 ^ (e - 23)) : ℚ) * 2 ^ (e - 23)

/-- The hat codes `GAMEPAD_HAT_*` of the HID report. -/
inductive GamepadHat where
  | CENTERED
  | UP
  | UP_RIGHT
  | RIGHT
  | DOWN_RIGHT
  | DOWN
  | DOWN_LEFT
  | LEFT
  | UP_LEFT
  deriving DecidableEq, Repr

/-- The report `hid_gamepad_report_t`: six signed 8-bit axes, the hat, and the
32-bit button mask. -/
structure hid_gamepad_report_t where
  /-- The field `x`. -/
  x : Int
  /-- The field `y`. -/
  y : Int
  /-- The field `z`. -/
  z : Int
  /-- The field `rz`. -/
  rz : Int
  /-- The field `rx`. -/
  rx : Int
  /-- The field `ry`. -/
  ry : Int
  /-- The field `hat`. -/
  hat : GamepadHat
  /-- The field `buttons`, a `uint32_t`. -/
  buttons : Nat
  deriving DecidableEq, Repr

/-- The assignment `report.f = GetAxis(n) * 127` of `MakeHidReport`, lines 111 to
116: the `float` product, truncated and stored in an `int8_t`. -/
def axisField (Inputs : List InputBank) (n : Int) : Int :=
  toInt8 (truncate (roundFloat32 (GetAxis Inputs n * 127)))

/-- The hat of `MakeHidReport`, lines 118 to 131. -/
def hatField (Inputs : List InputBank) (HatOffset : Int) : GamepadHat :=
  if HatOffset < 0 then GamepadHat.CENTERED
  else
    if GetButton Inputs HatOffset && GetButton Inputs (toInt8 (HatOffset + 3)) then
      GamepadHat.UP_LEFT
    else if GetButton Inputs HatOffset && GetButton Inputs (toInt8 (HatOffset + 1)) then
      GamepadHat.UP_RIGHT
    else if GetButton Inputs HatOffset then GamepadHat.UP
    else if GetButton Inputs (toInt8 (HatOffset + 1)) &&
        GetButton Inputs (toInt8 (HatOffset + 2)) then
      GamepadHat.DOWN_RIGHT
    else if GetButton Inputs (toInt8 (HatOffset + 1)) then GamepadHat.RIGHT
    else if GetButton Inputs (toInt8 (HatOffset + 2)) &&
        GetButton Inputs (toInt8 (HatOffset + 3)) then
      GamepadHat.DOWN_LEFT
    else if GetButton Inputs (toInt8 (HatOffset + 2)) then GamepadHat.DOWN
    else if GetButton Inputs (toInt8 (HatOffset + 3)) then GamepadHat.LEFT
    else GamepadHat.CENTERED

/-- One pass of the loop of `MakeHidReport`, lines 133 to 135, at `index`: the
button read, shifted to bit `index`, is or-ed into the 32-bit `buttons`. -/
def packButton (Inputs : List InputBank) (HatOffset : Int) (buttons : Nat) (index : Nat) :
    Nat :=
  if HatOffset < 0 ∨ (index : Int) < HatOffset then
    (buttons ||| ((GetButton Inputs (index : Int)).toNat <<< index)) % 2 ^ 32
  else
    (buttons ||| ((GetButton Inputs (toInt8 ((index : Int) + 4))).toNat <<< index)) % 2 ^ 32

/-- `GamepadController::MakeHidReport`, lines 105 to 137. -/
def MakeHidReport (Inputs : List InputBank) (HatOffset : Int) : hid_gamepad_report_t :=
  { x := axisField Inputs 0
    y := axisField Inputs 1
    z := axisField Inputs 2
    rz := axisField Inputs 3
    rx := axisField Inputs 4
    ry := axisField Inputs 5
    hat := hatField Inputs HatOffset
    buttons := (List.range 32).foldl (packButton Inputs HatOffset) 0 }

/-- One motion sensor, as the loop of `GamepadController::Update` meets it. -/
structure MpuPoll where
  /-- The member `Present` when the loop reaches the sensor. -/
  Present : Bool
  /-- The member `Present` as `mpu.Update()` leaves it, when it is called. -/
  PresentAfterUpdate : Bool
  deriving DecidableEq, Repr

/-- What the loop of `GamepadController::Update` did with one sensor. -/
structure MpuPolled where
  /-- Observation: `mpu.Update()` was called. -/
  Polled : Bool
  /-- The member `Present` after the pass. -/
  Present : Bool
  deriving DecidableEq, Repr

/-- The loop over `Mpus` of `GamepadController::Update`, lines 58 to 69, from the
current value of `mpuInitialized`. -/
def UpdateMpusLoop : Bool → List MpuPoll → List MpuPolled
  | _, [] => []
  | mpuInitialized, mpu :: rest =>
    let mpuWasPresent := mpu.Present
    let polled := !mpuInitialized || mpu.Present
    let present := if polled then mpu.PresentAfterUpdate else mpu.Present
    let mpuInitialized := if !mpuWasPresent && present then true else mpuInitialized
    { Polled := polled, Present := present } :: UpdateMpusLoop mpuInitialized rest

/-- The polling of the motion sensors in `GamepadController::Update`: the loop,
started with `mpuInitialized = false`. -/
def UpdateMpus (Mpus : List MpuPoll) : List MpuPolled :=
  UpdateMpusLoop false Mpus

/-- Modelled from the spec: the number of haptic actuators, the size of the
array `Haptics` that the header declares ("two haptic-actuator devices"). -/
def HapticCount : Nat := 2

/-! ## More definitions that follow the words of the specification -/

/-- The status code of the specification: DirectWire gives I; else wireless
connected gives B; else wireless advertising gives F with USB connected and A
without; else USB connected gives U; else D. -/
def statusCode (source : PowerSources) (connected advertising usbConnected : Bool) : Char :=
  if source = PowerSources.I2C then 'I'
  else if connected = true then 'B'
  else if advertising = true then (if usbConnected = true then 'F' else 'A')
  else if usbConnected = true then 'U'
  else 'D'

/-- The button of the specification for bit `i` of the mask: button `i` when the
hat is disabled or `i` is below the hat offset, button `i + 4` otherwise. -/
def maskButton (Inputs : List InputBank) (HatOffset : Int) (i : Nat) : Bool :=
  if HatOffset < 0 ∨ (i : Int) < HatOffset then GetButton Inputs (i : Int)
  else GetButton Inputs ((i : Int) + 4)

/-- A sensor that was not marked present and is marked present after its pass. -/
def becamePresent (mpu : MpuPoll) (r : MpuPolled) : Bool :=
  !mpu.Present && r.Present

/-- Example sensors for the polling: the first is marked present and stays so,
the second is not marked present and does not answer. -/
def examplePolls : List MpuPoll :=
  [ { Present := true, PresentAfterUpdate := true },
    { Present := false, PresentAfterUpdate := false } ]

/-- Example bank for the rounding of the axis product: one axis that holds the
float `2113665 / 2 ^ 28`. -/
def roundingBanks : List InputBank :=
  [ { Present := true, AxisCount := 1, ButtonCount := 0,
      Axis := fun _ => 2113665 / 268435456,
      Buttons := fun _ => false, UpdatedButton := fun _ => false } ]

/-- An example tick on battery power during which wireless stays connected and
is advertising as well when the indicators are derived. -/
def connectedAdvertisingTick : Tick :=
  { deltaTime := 10, USBEnabled := true, BLEEnabled := true, BluetoothWasConnected := true,
    SelectButton := false, SelectUpdatedButton := false,
    NewPowerSource := PowerSources.Battery, BluetoothIsConnected := true,
    IndicatorAdvertising := true, IndicatorBluetoothConnected := true,
    IndicatorUSBConnected := false }

/-- Example banks for the hat: one bank of 8 buttons, of which 2 and 5 are held. -/
def hatBanks : List InputBank :=
  [ { Present := true, AxisCount := 2, ButtonCount := 8,
      Axis := fun i => if i = 0 then 1 else -1,
      Buttons := fun i => decide (i = 2 ∨ i = 5), UpdatedButton := fun _ => false } ]

/-! ## Shared lemmas -/

theorem UpdateIndicators_flags (c : TinyController) (t : Tick) :
    (UpdateIndicators c t).USBActive = c.USBActive ∧
    (UpdateIndicators c t).BluetoothActive = c.BluetoothActive ∧
    (UpdateIndicators c t).PowerSource = c.PowerSource ∧
    (UpdateIndicators c t).Suspended = c.Suspended ∧
    (UpdateIndicators c t).ControllerUpdates = c.ControllerUpdates ∧
    (UpdateIndicators c t).Triggered = c.Triggered ∧
    (UpdateIndicators c t).BluetoothStartPressedTimeout = c.BluetoothStartPressedTimeout := by
  unfold UpdateIndicators
  split <;> simp

theorem UpdatePower_keeps (c : TinyController) (t : Tick) :
    (UpdatePower c t).PowerSource = t.NewPowerSource ∧
    (UpdatePower c t).Suspended = c.Suspended ∧
    (UpdatePower c t).ControllerUpdates = c.ControllerUpdates ∧
    (UpdatePower c t).Triggered = c.Triggered ∧
    (UpdatePower c t).BluetoothStartPressedTimeout = c.BluetoothStartPressedTimeout := by
  unfold UpdatePower
  simp only
  split_ifs <;> simp

theorem UpdatePower_rules (c : TinyController) (t : Tick) :
    ((UpdatePower c t).USBActive, (UpdatePower c t).BluetoothActive) =
      arbitrationRules c.PowerSource t.NewPowerSource t.BluetoothWasConnected
        t.BluetoothIsConnected (c.USBActive, c.BluetoothActive) := by
  obtain ⟨ps, u, b, tmo, su, cu, tr, ic⟩ := c
  obtain ⟨dt, ue, be, wc, sb, sub, nps, ic2, ia, ibc, iuc⟩ := t
  cases ps <;> cases nps <;> cases wc <;> cases ic2 <;>
    simp [UpdatePower, arbitrationRules]

theorem UpdateSelectButton_source (T : Int) (c : TinyController) (d : Int) (b : Bool) :
    (UpdateSelectButton T c d b).PowerSource = c.PowerSource := by
  unfold UpdateSelectButton
  simp only
  split_ifs <;> simp

theorem UpdateActivity_source (T : Int) (c : TinyController) (t : Tick) :
    (UpdateActivity T c t).PowerSource = c.PowerSource := by
  unfold UpdateActivity
  simp only
  split_ifs <;> simp [UpdateSelectButton_source]

theorem arbitrationRules_cases (prev cur : PowerSources) (wc ic mu mb : Bool) :
    (cur = PowerSources.I2C →
      arbitrationRules prev cur wc ic (mu, mb) = (false, false)) ∧
    (cur ≠ PowerSources.I2C → prev = PowerSources.I2C → cur = PowerSources.USB →
      arbitrationRules prev cur wc ic (mu, mb) = (true, false)) ∧
    (cur ≠ PowerSources.I2C → prev = PowerSources.I2C → cur ≠ PowerSources.USB →
      arbitrationRules prev cur wc ic (mu, mb) = (false, true)) ∧
    (prev ≠ PowerSources.I2C → cur = PowerSources.USB →
      (prev ≠ PowerSources.USB ∨ (wc = true ∧ ic = false)) →
      arbitrationRules prev cur wc ic (mu, mb) = (true, false)) ∧
    (prev ≠ PowerSources.I2C → cur = PowerSources.USB →
      ¬ (prev ≠ PowerSources.USB ∨ (wc = true ∧ ic = false)) →
      arbitrationRules prev cur wc ic (mu, mb) = (mu, mb)) ∧
    (cur ≠ PowerSources.I2C → prev ≠ PowerSources.I2C → cur ≠ PowerSources.USB →
      prev = PowerSources.USB →
      arbitrationRules prev cur wc ic (mu, mb) = (false, true)) ∧
    (cur ≠ PowerSources.I2C → prev ≠ PowerSources.I2C → cur ≠ PowerSources.USB →
      prev ≠ PowerSources.USB →
      arbitrationRules prev cur wc ic (mu, mb) = (mu, mb)) := by
  cases prev <;> cases cur <;> cases wc <;> cases ic <;> simp [arbitrationRules]

theorem UpdateSelectButton_keeps (T : Int) (c : TinyController) (d : Int) (b : Bool) :
    (UpdateSelectButton T c d b).Suspended = c.Suspended ∧
    (UpdateSelectButton T c d b).ControllerUpdates = c.ControllerUpdates := by
  unfold UpdateSelectButton
  simp only
  split_ifs <;> simp

/-- What one call of `UpdateSelectButton` does to the activation pair: nothing
when the toggle branch is not taken; in the toggle branch wireless is negated
and USB is switched on when wireless was active on USB power. -/
theorem UpdateSelectButton_flags (T : Int) (c : TinyController) (d : Int) (b : Bool) :
    ((UpdateSelectButton T c d b).Triggered = c.Triggered ∧
      (UpdateSelectButton T c d b).USBActive = c.USBActive ∧
      (UpdateSelectButton T c d b).BluetoothActive = c.BluetoothActive) ∨
    ((UpdateSelectButton T c d b).Triggered = c.Triggered + 1 ∧
      (UpdateSelectButton T c d b).USBActive =
        (c.USBActive || (c.BluetoothActive && c.PowerSource == PowerSources.USB)) ∧
      (UpdateSelectButton T c d b).BluetoothActive = !c.BluetoothActive) := by
  unfold UpdateSelectButton
  simp only
  split_ifs <;> simp_all

theorem UpdateActivity_flags (T : Int) (c : TinyController) (t : Tick) :
    ((UpdateActivity T c t).Triggered = c.Triggered ∧
      (UpdateActivity T c t).USBActive = c.USBActive ∧
      (UpdateActivity T c t).BluetoothActive = c.BluetoothActive) ∨
    ((UpdateActivity T c t).Triggered = c.Triggered + 1 ∧
      (UpdateActivity T c t).USBActive =
        (c.USBActive || (c.BluetoothActive && c.PowerSource == PowerSources.USB)) ∧
      (UpdateActivity T c t).BluetoothActive = !c.BluetoothActive) := by
  unfold UpdateActivity
  simp only
  split_ifs
  · exact UpdateSelectButton_flags T { c with ControllerUpdates := c.ControllerUpdates + 1 }
      t.deltaTime t.SelectButton
  · exact UpdateSelectButton_flags T c t.deltaTime t.SelectUpdatedButton

theorem arbitrationRules_exclusive (prev cur : PowerSources) (wc ic : Bool) (f : Bool × Bool) :
    arbitrationRules prev cur wc ic f = f ∨
    ¬ ((arbitrationRules prev cur wc ic f).1 = true ∧
       (arbitrationRules prev cur wc ic f).2 = true) := by
  cases prev <;> cases cur <;> cases wc <;> cases ic <;> simp [arbitrationRules]

theorem Update_flags (T : Int) (c : TinyController) (t : Tick) :
    ((Update T c t).USBActive, (Update T c t).BluetoothActive) =
      arbitrationRules c.PowerSource t.NewPowerSource t.BluetoothWasConnected
        t.BluetoothIsConnected
        ((UpdateActivity T c t).USBActive, (UpdateActivity T c t).BluetoothActive) := by
  have hi := UpdateIndicators_flags (UpdatePower (UpdateActivity T c t) t) t
  have hrules := UpdatePower_rules (UpdateActivity T c t) t
  rw [UpdateActivity_source] at hrules
  unfold Update
  rw [hi.1, hi.2.1, hrules]

theorem Update_Triggered (T : Int) (c : TinyController) (t : Tick) :
    (Update T c t).Triggered = (UpdateActivity T c t).Triggered := by
  unfold Update
  rw [(UpdateIndicators_flags _ t).2.2.2.2.2.1, (UpdatePower_keeps _ t).2.2.2.1]

theorem Update_Triggered_le (T : Int) (c : TinyController) (t : Tick) :
    c.Triggered ≤ (Update T c t).Triggered := by
  rw [Update_Triggered]
  rcases UpdateActivity_flags T c t with h | h <;> omega

theorem Run_Triggered_le (T : Int) (ticks : List Tick) :
    ∀ c : TinyController, c.Triggered ≤ (Run T c ticks).Triggered := by
  induction ticks with
  | nil => intro c; exact le_refl _
  | cons t ts ih =>
    intro c
    exact le_trans (Update_Triggered_le T c t) (ih (Update T c t))

theorem Run_append_singleton (T : Int) (c : TinyController) (pre : List Tick) (t : Tick) :
    Run T c (pre ++ [t]) = Update T (Run T c pre) t := by
  simp [Run, List.foldl_append]

/-- One tick keeps the transports mutually exclusive unless the toggle fires. -/
theorem Update_exclusive (T : Int) (c : TinyController) (t : Tick)
    (hc : ¬ (c.USBActive = true ∧ c.BluetoothActive = true))
    (hboth : (Update T c t).USBActive = true ∧ (Update T c t).BluetoothActive = true) :
    (Update T c t).Triggered = c.Triggered + 1 ∧ c.USBActive = true ∧
      c.BluetoothActive = false ∧ (UpdateActivity T c t).BluetoothActive = true := by
  have hf := Update_flags T c t
  have hp1 : (Update T c t).USBActive = _ := congrArg Prod.fst hf
  have hp2 : (Update T c t).BluetoothActive = _ := congrArg Prod.snd hf
  rw [Update_Triggered]
  rcases arbitrationRules_exclusive c.PowerSource t.NewPowerSource t.BluetoothWasConnected
      t.BluetoothIsConnected
      ((UpdateActivity T c t).USBActive, (UpdateActivity T c t).BluetoothActive) with h | h
  · rw [h] at hf
    have hp := Prod.mk.inj_iff.mp hf
    rcases UpdateActivity_flags T c t with ⟨h1, h2, h3⟩ | ⟨h1, h2, h3⟩
    · exfalso
      apply hc
      rw [← h2, ← h3, ← hp.1, ← hp.2]
      exact hboth
    · have hu : (UpdateActivity T c t).USBActive = true := by rw [← hp.1]; exact hboth.1
      have hb : (UpdateActivity T c t).BluetoothActive = true := by rw [← hp.2]; exact hboth.2
      rw [hu] at h2
      rw [hb] at h3
      refine ⟨h1, ?_, ?_, hb⟩
      · revert h2 h3; cases c.USBActive <;> cases c.BluetoothActive <;> simp
      · revert h3; cases c.BluetoothActive <;> simp
  · exfalso
    apply h
    rw [← hp1, ← hp2]
    exact hboth

theorem Init_exclusive (c : TinyController) (source : PowerSources) :
    ¬ ((Init c source).USBActive = true ∧ (Init c source).BluetoothActive = true) := by
  cases source <;> simp [Init]

/-- C1: the power-source arbitration of `Update` follows the ordered
first-match rule list.  With prev `c.PowerSource` the source before
`Power.Update`, cur `t.NewPowerSource` the source after it, and
`UpdateActivity T c t` the state when the arbitration starts, the activation
pair (USB active, wireless active) after the tick is the one the rule list
gives, rule by rule. -/
theorem C1_arbitration_rule_list (T : Int) (c : TinyController) (t : Tick) :
    (UpdateActivity T c t).PowerSource = c.PowerSource ∧
    (Update T c t).PowerSource = t.NewPowerSource ∧
    activation (Update T c t) =
      arbitrationRules c.PowerSource t.NewPowerSource t.BluetoothWasConnected
        t.BluetoothIsConnected (activation (UpdateActivity T c t)) ∧
    (t.NewPowerSource = PowerSources.I2C → activation (Update T c t) = (false, false)) ∧
    (t.NewPowerSource ≠ PowerSources.I2C → c.PowerSource = PowerSources.I2C →
      t.NewPowerSource = PowerSources.USB → activation (Update T c t) = (true, false)) ∧
    (t.NewPowerSource ≠ PowerSources.I2C → c.PowerSource = PowerSources.I2C →
      t.NewPowerSource ≠ PowerSources.USB → activation (Update T c t) = (false, true)) ∧
    (c.PowerSource ≠ PowerSources.I2C → t.NewPowerSource = PowerSources.USB →
      (c.PowerSource ≠ PowerSources.USB ∨
        (t.BluetoothWasConnected = true ∧ t.BluetoothIsConnected = false)) →
      activation (Update T c t) = (true, false)) ∧
    (c.PowerSource ≠ PowerSources.I2C → t.NewPowerSource = PowerSources.USB →
      ¬ (c.PowerSource ≠ PowerSources.USB ∨
        (t.BluetoothWasConnected = true ∧ t.BluetoothIsConnected = false)) →
      activation (Update T c t) = activation (UpdateActivity T c t)) ∧
    (t.NewPowerSource ≠ PowerSources.I2C → c.PowerSource ≠ PowerSources.I2C →
      t.NewPowerSource ≠ PowerSources.USB → c.PowerSource = PowerSources.USB →
      activation (Update T c t) = (false, true)) ∧
    (t.NewPowerSource ≠ PowerSources.I2C → c.PowerSource ≠ PowerSources.I2C →
      t.NewPowerSource ≠ PowerSources.USB → c.PowerSource ≠ PowerSources.USB →
      activation (Update T c t) = activation (UpdateActivity T c t)) := by
  have hi := UpdateIndicators_flags (UpdatePower (UpdateActivity T c t) t) t
  have hk := UpdatePower_keeps (UpdateActivity T c t) t
  have hrp : (Update T c t).PowerSource = t.NewPowerSource := by
    unfold Update
    rw [hi.2.2.1, hk.1]
  have hfl : activation (Update T c t) =
      arbitrationRules c.PowerSource t.NewPowerSource t.BluetoothWasConnected
        t.BluetoothIsConnected (activation (UpdateActivity T c t)) := Update_flags T c t
  refine ⟨UpdateActivity_source T c t, hrp, hfl, ?_⟩
  rw [hfl]
  exact arbitrationRules_cases c.PowerSource t.NewPowerSource _ _ _ _

/-- C2: mutual exclusion of the transports.  In the state reached from `Init`
by any sequence of `Update` ticks: when no tick has fired the wireless toggle,
USB active and wireless active are not both true; and when both are true, some
tick of the sequence started with the two not both true, fired the toggle, and
that toggle switched wireless from inactive to active while USB was active. -/
theorem C2_mutual_exclusion (T : Int) (c0 : TinyController) (source : PowerSources)
    (ticks : List Tick) :
    ((Run T (Init c0 source) ticks).Triggered = (Init c0 source).Triggered →
      ¬ ((Run T (Init c0 source) ticks).USBActive = true ∧
         (Run T (Init c0 source) ticks).BluetoothActive = true)) ∧
    (((Run T (Init c0 source) ticks).USBActive = true ∧
       (Run T (Init c0 source) ticks).BluetoothActive = true) →
      ∃ pre t post, ticks = pre ++ t :: post ∧
        ¬ ((Run T (Init c0 source) pre).USBActive = true ∧
           (Run T (Init c0 source) pre).BluetoothActive = true) ∧
        (Update T (Run T (Init c0 source) pre) t).Triggered =
          (Run T (Init c0 source) pre).Triggered + 1 ∧
        (Run T (Init c0 source) pre).USBActive = true ∧
        (Run T (Init c0 source) pre).BluetoothActive = false ∧
        (UpdateActivity T (Run T (Init c0 source) pre) t).BluetoothActive = true ∧
        (Update T (Run T (Init c0 source) pre) t).USBActive = true ∧
        (Update T (Run T (Init c0 source) pre) t).BluetoothActive = true) := by
  have key : ∀ ticks : List Tick,
      ((Run T (Init c0 source) ticks).USBActive = true ∧
       (Run T (Init c0 source) ticks).BluetoothActive = true) →
      ∃ pre t post, ticks = pre ++ t :: post ∧
        ¬ ((Run T (Init c0 source) pre).USBActive = true ∧
           (Run T (Init c0 source) pre).BluetoothActive = true) ∧
        (Update T (Run T (Init c0 source) pre) t).Triggered =
          (Run T (Init c0 source) pre).Triggered + 1 ∧
        (Run T (Init c0 source) pre).USBActive = true ∧
        (Run T (Init c0 source) pre).BluetoothActive = false ∧
        (UpdateActivity T (Run T (Init c0 source) pre) t).BluetoothActive = true ∧
        (Update T (Run T (Init c0 source) pre) t).USBActive = true ∧
        (Update T (Run T (Init c0 source) pre) t).BluetoothActive = true := by
    intro ticks
    induction ticks using List.reverseRecOn with
    | nil =>
      intro h
      exact absurd h (Init_exclusive c0 source)
    | append_singleton pre t ih =>
      intro h
      by_cases hpre : (Run T (Init c0 source) pre).USBActive = true ∧
          (Run T (Init c0 source) pre).BluetoothActive = true
      · obtain ⟨p, u, q, hq, hrest⟩ := ih hpre
        refine ⟨p, u, q ++ [t], ?_, hrest⟩
        rw [hq]
        simp
      · rw [Run_append_singleton] at h
        have hs := Update_exclusive T _ t hpre h
        exact ⟨pre, t, [], rfl, hpre, hs.1, hs.2.1, hs.2.2.1, hs.2.2.2, h.1, h.2⟩
  refine ⟨?_, key ticks⟩
  intro htr hboth
  obtain ⟨pre, t, post, hq, _, hfire, _⟩ := key ticks hboth
  have h1 := Run_Triggered_le T pre (Init c0 source)
  have h2 := Run_Triggered_le T post (Update T (Run T (Init c0 source) pre) t)
  have h3 : Run T (Init c0 source) ticks =
      Run T (Update T (Run T (Init c0 source) pre) t) post := by
    rw [hq]
    simp [Run, List.foldl_append]
  rw [h3] at htr
  omega

/-- Witness of C2: a device started on USB power and ticked once with the button
released has not fired the toggle and does not have both transports active. -/
theorem C2_mutual_exclusion_witness :
    (Run 100 (Init exampleController PowerSources.USB) [exampleTick]).Triggered =
      (Init exampleController PowerSources.USB).Triggered ∧
    ¬ ((Run 100 (Init exampleController PowerSources.USB) [exampleTick]).USBActive = true ∧
       (Run 100 (Init exampleController PowerSources.USB) [exampleTick]).BluetoothActive = true) :=
  ⟨by decide,
    (C2_mutual_exclusion 100 exampleController PowerSources.USB [exampleTick]).1 (by decide)⟩

/-- C4: suspension.  In every tick the Suspended flag ends true exactly when
wire-service, wireless-service and USB-service are all false, and exactly then
the input aggregator is not polled; when one of the three is true the
aggregator is polled once and Suspended ends false. -/
theorem C4_suspension (T : Int) (c : TinyController) (t : Tick) :
    (((Update T c t).Suspended = true ∧
        (Update T c t).ControllerUpdates = c.ControllerUpdates) ↔
      (wireService c t = false ∧ wirelessService c t = false ∧ usbService c t = false)) ∧
    ((Update T c t).Suspended = true ↔
      (wireService c t = false ∧ wirelessService c t = false ∧ usbService c t = false)) ∧
    ((Update T c t).ControllerUpdates = c.ControllerUpdates ↔
      (wireService c t = false ∧ wirelessService c t = false ∧ usbService c t = false)) ∧
    ((wireService c t = true ∨ wirelessService c t = true ∨ usbService c t = true) →
      (Update T c t).ControllerUpdates = c.ControllerUpdates + 1 ∧
      (Update T c t).Suspended = false) := by
  have hi := UpdateIndicators_flags (UpdatePower (UpdateActivity T c t) t) t
  have hk := UpdatePower_keeps (UpdateActivity T c t) t
  have hs : (Update T c t).Suspended = (UpdateActivity T c t).Suspended := by
    unfold Update
    rw [hi.2.2.2.1, hk.2.1]
  have hu : (Update T c t).ControllerUpdates = (UpdateActivity T c t).ControllerUpdates := by
    unfold Update
    rw [hi.2.2.2.2.1, hk.2.2.1]
  rw [hs, hu]
  by_cases h : (wireService c t || wirelessService c t || usbService c t) = true
  · have hact : UpdateActivity T c t =
        { UpdateSelectButton T { c with ControllerUpdates := c.ControllerUpdates + 1 }
            t.deltaTime t.SelectButton with Suspended := false } := by
      unfold UpdateActivity
      simp only [wireService, wirelessService, usbService] at h
      simp only [h, if_true]
    have hsb := UpdateSelectButton_keeps T { c with ControllerUpdates := c.ControllerUpdates + 1 }
      t.deltaTime t.SelectButton
    rw [hact]
    simp only [hsb.2]
    simp only [Bool.or_eq_true] at h
    have hne : ¬ (wireService c t = false ∧ wirelessService c t = false ∧
        usbService c t = false) := by
      rintro ⟨a, b, d⟩
      simp [a, b, d] at h
    simp [hne]
  · have hact : UpdateActivity T c t =
        { UpdateSelectButton T c t.deltaTime t.SelectUpdatedButton with Suspended := true } := by
      unfold UpdateActivity
      simp only [wireService, wirelessService, usbService] at h
      simp only [h]
      rfl
    have hsb := UpdateSelectButton_keeps T c t.deltaTime t.SelectUpdatedButton
    rw [hact]
    simp only [hsb.2]
    simp only [Bool.or_eq_true, not_or, Bool.not_eq_true] at h
    simp [h.1.1, h.1.2, h.2]

/-! ## Index flattening -/

theorem GetAxis_eq_resolveRead (banks : List InputBank) :
    ∀ k : Int, GetAxis banks k = resolveRead InputBank.AxisCount InputBank.Axis 0 banks k := by
  induction banks with
  | nil => intro k; rfl
  | cons b rest ih => intro k; simp only [GetAxis, resolveRead, ih]

theorem GetButton_eq_resolveRead (banks : List InputBank) :
    ∀ k : Int,
      GetButton banks k = resolveRead InputBank.ButtonCount InputBank.Buttons false banks k := by
  induction banks with
  | nil => intro k; rfl
  | cons b rest ih => intro k; simp only [GetButton, resolveRead, ih]

theorem GetUpdatedButton_eq_resolveRead (banks : List InputBank) :
    ∀ k : Int, GetUpdatedButton banks k =
      resolveRead InputBank.ButtonCount InputBank.UpdatedButton false banks k := by
  induction banks with
  | nil => intro k; rfl
  | cons b rest ih => intro k; simp only [GetUpdatedButton, resolveRead, ih]

theorem allAxes_eq_concatReads (banks : List InputBank) :
    allAxes banks = concatReads InputBank.AxisCount InputBank.Axis banks := by
  induction banks with
  | nil => rfl
  | cons b rest ih => simp only [allAxes, concatReads, bankAxes, ih]

theorem allButtons_eq_concatReads (banks : List InputBank) :
    allButtons banks = concatReads InputBank.ButtonCount InputBank.Buttons banks := by
  induction banks with
  | nil => rfl
  | cons b rest ih => simp only [allButtons, concatReads, bankButtons, ih]

theorem allUpdatedButtons_eq_concatReads (banks : List InputBank) :
    allUpdatedButtons banks =
      concatReads InputBank.ButtonCount InputBank.UpdatedButton banks := by
  induction banks with
  | nil => rfl
  | cons b rest ih => simp only [allUpdatedButtons, concatReads, bankUpdatedButtons, ih]

theorem totalAxisCount_eq_totalCount (banks : List InputBank) :
    totalAxisCount banks = totalCount InputBank.AxisCount banks := by
  induction banks with
  | nil => rfl
  | cons b rest ih => simp only [totalAxisCount, totalCount, ih]

theorem totalButtonCount_eq_totalCount (banks : List InputBank) :
    totalButtonCount banks = totalCount InputBank.ButtonCount banks := by
  induction banks with
  | nil => rfl
  | cons b rest ih => simp only [totalButtonCount, totalCount, ih]

theorem totalCount_nonneg (count : InputBank → Int) (banks : List InputBank)
    (h : ∀ b ∈ banks, 0 ≤ count b) : 0 ≤ totalCount count banks := by
  induction banks with
  | nil => exact le_refl _
  | cons b rest ih =>
    have h1 := h b (List.mem_cons_self b rest)
    have h2 := ih (fun x hx => h x (List.mem_cons_of_mem b hx))
    simp only [totalCount]
    omega

theorem concatReads_length {α : Type} (count : InputBank → Int) (read : InputBank → Int → α)
    (banks : List InputBank) (h : ∀ b ∈ banks, 0 ≤ count b) :
    ((concatReads count read banks).length : Int) = totalCount count banks := by
  induction banks with
  | nil => rfl
  | cons b rest ih =>
    have h1 := h b (List.mem_cons_self b rest)
    have h2 := ih (fun x hx => h x (List.mem_cons_of_mem b hx))
    simp only [concatReads, totalCount, List.length_append, List.length_map, List.length_range]
    push_cast
    rw [h2, Int.toNat_of_nonneg h1]

/-- The getter loop reads the flattened array, and the default beyond it. -/
theorem resolveRead_eq_getD {α : Type} (count : InputBank → Int) (read : InputBank → Int → α)
    (dflt : α) (banks : List InputBank) (h : ∀ b ∈ banks, 0 ≤ count b) :
    ∀ k : Int, 0 ≤ k →
      resolveRead count read dflt banks k = (concatReads count read banks).getD k.toNat dflt := by
  induction banks with
  | nil => intro k _; simp [resolveRead, concatReads]
  | cons b rest ih =>
    intro k hk
    have h1 := h b (List.mem_cons_self b rest)
    have h2 := ih (fun x hx => h x (List.mem_cons_of_mem b hx))
    have hlen : ((List.range (count b).toNat).map (fun (i : Nat) => read b (i : Int))).length =
        (count b).toNat := by simp
    simp only [resolveRead, concatReads]
    split_ifs with hlt
    · have hn : k.toNat < (count b).toNat := by omega
      rw [List.getD_append _ _ _ _ (by rw [hlen]; exact hn)]
      rw [List.getD_eq_getElem _ _ (by rw [hlen]; exact hn)]
      simp only [List.getElem_map, List.getElem_range]
      rw [Int.toNat_of_nonneg hk]
    · have hn : (count b).toNat ≤ k.toNat := by omega
      rw [List.getD_append_right _ _ _ _ (by rw [hlen]; exact hn), hlen]
      rw [h2 (k - count b) (by omega)]
      congr 1
      omega

/-- The getter loop at the global index of local index `i` of bank `b`. -/
theorem resolveRead_at_bank {α : Type} (count : InputBank → Int) (read : InputBank → Int → α)
    (dflt : α) (b : InputBank) (post : List InputBank) (i : Int) (hi : i < count b) :
    ∀ pre : List InputBank, (∀ x ∈ pre, 0 ≤ count x) → 0 ≤ i →
      resolveRead count read dflt (pre ++ b :: post) (totalCount count pre + i) = read b i := by
  intro pre
  induction pre with
  | nil =>
    intro _ _
    simp [resolveRead, totalCount, hi]
  | cons p rest ih =>
    intro h h0
    have h1 := h p (List.mem_cons_self p rest)
    have hrest : ∀ x ∈ rest, 0 ≤ count x := fun x hx => h x (List.mem_cons_of_mem p hx)
    have h2 := totalCount_nonneg count rest hrest
    have hnot : ¬ (count p + totalCount count rest + i < count p) := by omega
    simp only [List.cons_append, resolveRead, totalCount, hnot, if_false]
    rw [show count p + totalCount count rest + i - count p = totalCount count rest + i by omega]
    exact ih hrest h0

theorem resolveRead_Present {α : Type} (count : InputBank → Int) (read : InputBank → Int → α)
    (dflt : α) (f : InputBank → Bool) (banks : List InputBank)
    (hc : ∀ b, count { b with Present := f b } = count b)
    (hr : ∀ b, read { b with Present := f b } = read b) :
    ∀ k : Int, resolveRead count read dflt (banks.map (fun b => { b with Present := f b })) k =
      resolveRead count read dflt banks k := by
  induction banks with
  | nil => intro k; rfl
  | cons b rest ih =>
    intro k
    simp only [List.map_cons, resolveRead, hc, hr, ih]

/-- C3: global index flattening.  For banks with non-negative counts and a
global index `k` that is not negative, `GetAxis k` is the `k`-th element of the
concatenation of the banks' axis arrays in bank order, which has the total axis
count as length, and is 0 from the total axis count on; it is the axis of bank
`b` at local index `i` when `k` is `i` plus the summed axis counts of the banks
before `b`; `GetButton` and `GetUpdatedButton` resolve the same way over the
button counts, with false from the total button count on; and none of the three
depends on which banks are marked present. -/
theorem C3_global_index_flattening (banks : List InputBank)
    (hcounts : ∀ b ∈ banks, 0 ≤ b.AxisCount ∧ 0 ≤ b.ButtonCount) (k : Int) (hk : 0 ≤ k) :
    (GetAxis banks k = (allAxes banks).getD k.toNat 0 ∧
      ((allAxes banks).length : Int) = totalAxisCount banks ∧
      (totalAxisCount banks ≤ k → GetAxis banks k = 0)) ∧
    (GetButton banks k = (allButtons banks).getD k.toNat false ∧
      ((allButtons banks).length : Int) = totalButtonCount banks ∧
      (totalButtonCount banks ≤ k → GetButton banks k = false)) ∧
    (GetUpdatedButton banks k = (allUpdatedButtons banks).getD k.toNat false ∧
      ((allUpdatedButtons banks).length : Int) = totalButtonCount banks ∧
      (totalButtonCount banks ≤ k → GetUpdatedButton banks k = false)) ∧
    (∀ (pre : List InputBank) (b : InputBank) (post : List InputBank),
      banks = pre ++ b :: post →
      (0 ≤ k - totalAxisCount pre → k - totalAxisCount pre < b.AxisCount →
        GetAxis banks k = b.Axis (k - totalAxisCount pre)) ∧
      (0 ≤ k - totalButtonCount pre → k - totalButtonCount pre < b.ButtonCount →
        GetButton banks k = b.Buttons (k - totalButtonCount pre) ∧
        GetUpdatedButton banks k = b.UpdatedButton (k - totalButtonCount pre))) ∧
    (∀ f : InputBank → Bool,
      GetAxis (banks.map (fun b => { b with Present := f b })) k = GetAxis banks k ∧
      GetButton (banks.map (fun b => { b with Present := f b })) k = GetButton banks k ∧
      GetUpdatedButton (banks.map (fun b => { b with Present := f b })) k =
        GetUpdatedButton banks k) := by
  have ha : ∀ b ∈ banks, 0 ≤ b.AxisCount := fun b hb => (hcounts b hb).1
  have hb : ∀ b ∈ banks, 0 ≤ b.ButtonCount := fun b hb => (hcounts b hb).2
  have flat : ∀ {α : Type} (count : InputBank → Int) (read : InputBank → Int → α) (dflt : α),
      (∀ b ∈ banks, 0 ≤ count b) →
      resolveRead count read dflt banks k = (concatReads count read banks).getD k.toNat dflt ∧
      ((concatReads count read banks).length : Int) = totalCount count banks ∧
      (totalCount count banks ≤ k → resolveRead count read dflt banks k = dflt) := by
    intro α count read dflt hc
    have h1 := resolveRead_eq_getD count read dflt banks hc k hk
    have h2 := concatReads_length count read banks hc
    refine ⟨h1, h2, ?_⟩
    intro hle
    rw [h1]
    apply List.getD_eq_default
    omega
  have local_ : ∀ {α : Type} (count : InputBank → Int) (read : InputBank → Int → α) (dflt : α)
      (pre : List InputBank) (b : InputBank) (post : List InputBank),
      (∀ x ∈ banks, 0 ≤ count x) → banks = pre ++ b :: post →
      0 ≤ k - totalCount count pre → k - totalCount count pre < count b →
      resolveRead count read dflt banks k = read b (k - totalCount count pre) := by
    intro α count read dflt pre b post hc hsplit h0 h1
    have hpre : ∀ x ∈ pre, 0 ≤ count x := by
      intro x hx
      apply hc
      rw [hsplit]
      exact List.mem_append_left _ hx
    have := resolveRead_at_bank count read dflt b post (k - totalCount count pre) h1 pre hpre h0
    rw [hsplit]
    rw [show totalCount count pre + (k - totalCount count pre) = k by omega] at this
    exact this
  simp only [GetAxis_eq_resolveRead, GetButton_eq_resolveRead, GetUpdatedButton_eq_resolveRead,
    allAxes_eq_concatReads, allButtons_eq_concatReads, allUpdatedButtons_eq_concatReads,
    totalAxisCount_eq_totalCount, totalButtonCount_eq_totalCount]
  refine ⟨flat _ _ _ ha, flat _ _ _ hb, flat _ _ _ hb, ?_, ?_⟩
  · intro pre b post hsplit
    refine ⟨local_ _ _ _ pre b post ha hsplit, ?_⟩
    intro h0 h1
    exact ⟨local_ _ _ _ pre b post hb hsplit h0 h1, local_ _ _ _ pre b post hb hsplit h0 h1⟩
  · intro f
    exact ⟨resolveRead_Present InputBank.AxisCount InputBank.Axis 0 f banks
        (fun _ => rfl) (fun _ => rfl) k,
      resolveRead_Present InputBank.ButtonCount InputBank.Buttons false f banks
        (fun _ => rfl) (fun _ => rfl) k,
      resolveRead_Present InputBank.ButtonCount InputBank.UpdatedButton false f banks
        (fun _ => rfl) (fun _ => rfl) k⟩

/-- Witness of C3: on the example banks, global axis 2 is read from the
concatenated axis arrays. -/
theorem C3_global_index_flattening_witness :
    (∀ b ∈ exampleBanks, 0 ≤ b.AxisCount ∧ 0 ≤ b.ButtonCount) ∧ (0 : Int) ≤ 2 ∧
    GetAxis exampleBanks 2 = (allAxes exampleBanks).getD (2 : Int).toNat 0 :=
  ⟨by decide, by decide,
    (C3_global_index_flattening exampleBanks (by decide) 2 (by decide)).1.1⟩

/-! ## The wireless-toggle button -/

/-- Holding the button while the timer stays above the elapsed time only counts
the timer down. -/
theorem HoldSelectButton_counting (T : Int) (ds : List Int) :
    ∀ c : TinyController, (∀ d ∈ ds, 0 ≤ d) → ds.sum < c.BluetoothStartPressedTimeout →
      HoldSelectButton T c ds =
        { c with BluetoothStartPressedTimeout := c.BluetoothStartPressedTimeout - ds.sum } := by
  induction ds with
  | nil => intro c _ _; simp [HoldSelectButton]
  | cons d rest ih =>
    intro c hnn hsum
    have hd : 0 ≤ d := hnn d (List.mem_cons_self d rest)
    have hrest : ∀ x ∈ rest, 0 ≤ x := fun x hx => hnn x (List.mem_cons_of_mem d hx)
    have hrs : 0 ≤ rest.sum := List.sum_nonneg hrest
    simp only [List.sum_cons] at hsum
    have hpos : c.BluetoothStartPressedTimeout > 0 := by omega
    have hstep : UpdateSelectButton T c d true =
        { c with BluetoothStartPressedTimeout := c.BluetoothStartPressedTimeout - d } := by
      simp [UpdateSelectButton, hpos]
    have hfold : HoldSelectButton T c (d :: rest) =
        HoldSelectButton T (UpdateSelectButton T c d true) rest := rfl
    rw [hfold, hstep, ih _ hrest (by simp only; omega)]
    simp only [List.sum_cons]
    congr 1
    omega

theorem HoldSelectButton_append (T : Int) (c : TinyController) (xs ys : List Int) :
    HoldSelectButton T c (xs ++ ys) = HoldSelectButton T (HoldSelectButton T c xs) ys := by
  simp [HoldSelectButton, List.foldl_append]

/-- One cycle of a held button from an armed timer: the held time reaches the
debounce duration at tick `last`, no toggle has fired by then, and the next held
tick fires the toggle and arms the timer again. -/
theorem HoldSelectButton_cycle (T : Int) (c : TinyController) (pre : List Int) (last d : Int)
    (harmed : c.BluetoothStartPressedTimeout = T)
    (hnn : ∀ x ∈ pre, 0 ≤ x) (hbelow : pre.sum < T) (hreach : T ≤ pre.sum + last) :
    HoldSelectButton T c (pre ++ [last]) =
      { c with BluetoothStartPressedTimeout := T - (pre.sum + last) } ∧
    HoldSelectButton T c (pre ++ [last] ++ [d]) =
      UpdateSelectButton T { c with BluetoothStartPressedTimeout := T - (pre.sum + last) }
        d true ∧
    (HoldSelectButton T c (pre ++ [last] ++ [d])).Triggered = c.Triggered + 1 ∧
    (HoldSelectButton T c (pre ++ [last] ++ [d])).BluetoothActive = (!c.BluetoothActive) ∧
    (HoldSelectButton T c (pre ++ [last] ++ [d])).BluetoothStartPressedTimeout = T := by
  have h1 : HoldSelectButton T c (pre ++ [last]) =
      { c with BluetoothStartPressedTimeout := T - (pre.sum + last) } := by
    rw [HoldSelectButton_append, HoldSelectButton_counting T pre c hnn (by rw [harmed]; exact hbelow)]
    have hpos : T - pre.sum > 0 := by omega
    simp only [HoldSelectButton, List.foldl_cons, List.foldl_nil, UpdateSelectButton, harmed,
      hpos, if_true]
    congr 1
    omega
  have h2 : HoldSelectButton T c (pre ++ [last] ++ [d]) =
      UpdateSelectButton T { c with BluetoothStartPressedTimeout := T - (pre.sum + last) }
        d true := by
    rw [HoldSelectButton_append, h1]
    rfl
  have hnot : ¬ (T - (pre.sum + last) > 0) := by omega
  refine ⟨h1, h2, ?_, ?_, ?_⟩ <;> rw [h2] <;> simp only [UpdateSelectButton, hnot, if_true,
    if_false] <;> split_ifs <;> simp

/-- C5, as stated, fails: with debounce duration 100 and an armed timer, the
button held for two ticks of 50 (held time 100) fires no toggle, and held for
six ticks of 50 (held time 300, never released) fires two toggles, which leave
wireless activation as it was. -/
theorem C5_one_toggle_per_press_counterexample :
    exampleController.BluetoothStartPressedTimeout = 100 ∧
    (100 : Int) ≤ [50, 50].sum ∧
    (HoldSelectButton 100 exampleController [50, 50]).Triggered =
      exampleController.Triggered ∧
    (100 : Int) ≤ [50, 50, 50, 50, 50, 50].sum ∧
    (HoldSelectButton 100 exampleController [50, 50, 50, 50, 50, 50]).Triggered =
      exampleController.Triggered + 2 ∧
    (HoldSelectButton 100 exampleController [50, 50, 50, 50, 50, 50]).BluetoothActive =
      exampleController.BluetoothActive := by
  decide

/-- C5, amended: from an armed timer, over consecutive held ticks with
non-negative elapsed times, no toggle has fired when the held time first reaches
the debounce duration (tick `last`); the next held tick fires exactly one toggle
and arms the timer again; and when the button stays held through a second such
cycle a second toggle fires without any release, so wireless activation is back
at its first value. -/
theorem C5_toggle_repeats_while_held (T : Int) (c : TinyController)
    (pre : List Int) (last d : Int) (pre2 : List Int) (last2 d2 : Int)
    (harmed : c.BluetoothStartPressedTimeout = T)
    (hnn : ∀ x ∈ pre, 0 ≤ x) (hbelow : pre.sum < T) (hreach : T ≤ pre.sum + last)
    (hnn2 : ∀ x ∈ pre2, 0 ≤ x) (hbelow2 : pre2.sum < T) (hreach2 : T ≤ pre2.sum + last2) :
    (HoldSelectButton T c (pre ++ [last])).Triggered = c.Triggered ∧
    (HoldSelectButton T c (pre ++ [last])).BluetoothActive = c.BluetoothActive ∧
    (HoldSelectButton T c (pre ++ [last] ++ [d])).Triggered = c.Triggered + 1 ∧
    (HoldSelectButton T c (pre ++ [last] ++ [d])).BluetoothActive = (!c.BluetoothActive) ∧
    (HoldSelectButton T c (pre ++ [last] ++ [d])).BluetoothStartPressedTimeout = T ∧
    (HoldSelectButton T c ((pre ++ [last] ++ [d]) ++ (pre2 ++ [last2] ++ [d2]))).Triggered =
      c.Triggered + 2 ∧
    (HoldSelectButton T c ((pre ++ [last] ++ [d]) ++ (pre2 ++ [last2] ++ [d2]))).BluetoothActive =
      c.BluetoothActive := by
  have h1 := HoldSelectButton_cycle T c pre last d harmed hnn hbelow hreach
  have h2 := HoldSelectButton_cycle T (HoldSelectButton T c (pre ++ [last] ++ [d])) pre2 last2 d2
    h1.2.2.2.2 hnn2 hbelow2 hreach2
  refine ⟨?_, ?_, h1.2.2.1, h1.2.2.2.1, h1.2.2.2.2, ?_, ?_⟩
  · rw [h1.1]
  · rw [h1.1]
  · rw [HoldSelectButton_append, h2.2.2.1, h1.2.2.1]
  · rw [HoldSelectButton_append, h2.2.2.2.1, h1.2.2.2.1]
    simp

/-- Witness of the amended C5: debounce duration 100, ticks of 50. -/
theorem C5_toggle_repeats_while_held_witness :
    (HoldSelectButton 100 exampleController
      (([50] ++ [50] ++ [50]) ++ ([50] ++ [50] ++ [50]))).Triggered =
      exampleController.Triggered + 2 :=
  (C5_toggle_repeats_while_held 100 exampleController [50] 50 50 [50] 50 50 rfl
    (by decide) (by decide) (by decide) (by decide) (by decide) (by decide)).2.2.2.2.2.1

/-- C6: short press.  From an armed timer (equal to the positive debounce
duration `T`), consecutive held calls with non-negative elapsed times of sum
below `T` fire no toggle: the trigger count and both activation flags are
unchanged and the timer is `T` minus the held time; and any call with the button
not held sets the timer to `T` and fires no toggle. -/
theorem C6_short_press_no_toggle (T : Int) (c : TinyController) (ds : List Int)
    (_hT : 0 < T) (harmed : c.BluetoothStartPressedTimeout = T)
    (hnn : ∀ d ∈ ds, 0 ≤ d) (hsum : ds.sum < T) :
    (HoldSelectButton T c ds).Triggered = c.Triggered ∧
    (HoldSelectButton T c ds).BluetoothActive = c.BluetoothActive ∧
    (HoldSelectButton T c ds).USBActive = c.USBActive ∧
    (HoldSelectButton T c ds).BluetoothStartPressedTimeout = T - ds.sum ∧
    0 < (HoldSelectButton T c ds).BluetoothStartPressedTimeout ∧
    (∀ (s : TinyController) (d : Int),
      (UpdateSelectButton T s d false).BluetoothStartPressedTimeout = T ∧
      (UpdateSelectButton T s d false).Triggered = s.Triggered ∧
      (UpdateSelectButton T s d false).BluetoothActive = s.BluetoothActive ∧
      (UpdateSelectButton T s d false).USBActive = s.USBActive) := by
  have h := HoldSelectButton_counting T ds c hnn (by rw [harmed]; exact hsum)
  rw [h, harmed]
  refine ⟨rfl, rfl, rfl, rfl, ?_, ?_⟩
  · show 0 < T - ds.sum
    omega
  · intro s d
    simp [UpdateSelectButton]

/-- Witness of C6: debounce duration 100, held for 30 then 40. -/
theorem C6_short_press_no_toggle_witness :
    (0 : Int) < 100 ∧ exampleController.BluetoothStartPressedTimeout = 100 ∧
    (∀ d ∈ [(30 : Int), 40], 0 ≤ d) ∧ [(30 : Int), 40].sum < 100 ∧
    (HoldSelectButton 100 exampleController [30, 40]).Triggered =
      exampleController.Triggered :=
  ⟨by decide, rfl, by decide, by decide,
    (C6_short_press_no_toggle 100 exampleController [30, 40] (by decide) rfl (by decide)
      (by decide)).1⟩

/-- C7: effect of a fired toggle.  A call with the button held and the timer at
or below zero negates wireless activation, sets the timer to the debounce
duration, and sets USB active exactly when wireless has just become inactive and
the power source is USB; otherwise USB activation is unchanged.  On battery
power with wireless active, wireless becomes inactive and USB activation is
unchanged.  A call that does not fire the toggle changes neither flag. -/
theorem C7_fired_toggle_effect (T : Int) (c : TinyController) (d : Int) :
    (c.BluetoothStartPressedTimeout ≤ 0 →
      (UpdateSelectButton T c d true).BluetoothActive = (!c.BluetoothActive) ∧
      (UpdateSelectButton T c d true).BluetoothStartPressedTimeout = T ∧
      (UpdateSelectButton T c d true).Triggered = c.Triggered + 1 ∧
      (UpdateSelectButton T c d true).PowerSource = c.PowerSource ∧
      (((UpdateSelectButton T c d true).BluetoothActive = false ∧
          c.PowerSource = PowerSources.USB) →
        (UpdateSelectButton T c d true).USBActive = true) ∧
      (¬ ((UpdateSelectButton T c d true).BluetoothActive = false ∧
          c.PowerSource = PowerSources.USB) →
        (UpdateSelectButton T c d true).USBActive = c.USBActive) ∧
      (c.PowerSource = PowerSources.Battery → c.BluetoothActive = true →
        (UpdateSelectButton T c d true).BluetoothActive = false ∧
        (UpdateSelectButton T c d true).USBActive = c.USBActive)) ∧
    (∀ b : Bool, ¬ (b = true ∧ c.BluetoothStartPressedTimeout ≤ 0) →
      (UpdateSelectButton T c d b).USBActive = c.USBActive ∧
      (UpdateSelectButton T c d b).BluetoothActive = c.BluetoothActive ∧
      (UpdateSelectButton T c d b).Triggered = c.Triggered) := by
  constructor
  · intro h
    have hnot : ¬ (c.BluetoothStartPressedTimeout > 0) := by omega
    obtain ⟨ps, u, b, tmo, su, cu, tr, ic⟩ := c
    cases ps <;> cases b <;> simp [UpdateSelectButton, hnot]
  · intro b hb
    cases b
    · simp [UpdateSelectButton]
    · have hpos : c.BluetoothStartPressedTimeout > 0 := by
        by_contra hcon
        exact hb ⟨rfl, by omega⟩
      simp [UpdateSelectButton, hpos]

/-- Witness of C7: on battery with wireless active and the timer run out, the
held button deactivates wireless and leaves USB inactive. -/
theorem C7_fired_toggle_effect_witness :
    (UpdateSelectButton 100 { exampleController with BluetoothStartPressedTimeout := 0 }
        10 true).BluetoothActive = false ∧
    (UpdateSelectButton 100 { exampleController with BluetoothStartPressedTimeout := 0 }
        10 true).USBActive = false :=
  ((C7_fired_toggle_effect 100 { exampleController with BluetoothStartPressedTimeout := 0 }
      10).1 (by decide)).2.2.2.2.2.2 rfl rfl

/-! ## Motion-sensor buffer -/

/-- Every span `MakeMpuBuffer` hands to `FillBuffer` has the size of the whole
buffer. -/
theorem MakeMpuBufferLoop_size (dataSize : Nat) (Mpus : List MotionSensor) :
    ∀ acc : Nat × List TIFixedSpan, (∀ s ∈ acc.2, s.size = dataSize) →
      ∀ s ∈ (MakeMpuBufferLoop dataSize Mpus acc).2, s.size = dataSize := by
  induction Mpus with
  | nil => intro acc h; exact h
  | cons m rest ih =>
    rintro ⟨size, handed⟩ h
    simp only [MakeMpuBufferLoop]
    split_ifs
    · apply ih
      intro s hs
      rcases List.mem_append.mp hs with h1 | h1
      · exact h s h1
      · simp only [List.mem_singleton] at h1
        rw [h1]
    · exact ih _ h

/-- C8, the code at a failing input: a 20-byte buffer and two present sensors,
each writing its 14-byte record only when the span it is handed has room for it.
The second sensor is handed the span at offset 14 with size 20, not the 6 bytes
that remain, writes bytes 14 to 27, and 28 is returned for a 20-byte buffer. -/
theorem C8_MakeMpuBuffer_overrun :
    (∀ m ∈ exampleMpus, ∀ span : TIFixedSpan, m.FillBuffer span ≤ span.size) ∧
    MakeMpuBufferSpans exampleMpus 20 =
      [{ offset := 0, size := 20 }, { offset := 14, size := 20 }] ∧
    MakeMpuBuffer exampleMpus 20 = 28 ∧
    20 < MakeMpuBuffer exampleMpus 20 := by
  refine ⟨?_, by decide, by decide, by decide⟩
  intro m hm span
  simp only [exampleMpus, List.mem_cons, List.mem_singleton, List.not_mem_nil, or_false,
    or_self] at hm
  rw [hm]
  show (if 14 ≤ span.size then 14 else 0) ≤ span.size
  split_ifs <;> omega

/-! ## Haptic commands -/

theorem bit_selected (n b : Nat) : (n &&& (1 <<< b) ≠ 0) ↔ n.testBit b = true := by
  rw [Nat.one_shiftLeft, Nat.and_two_pow]
  cases n.testBit b <;> simp

theorem timeout_big_endian (a b : Nat) (ha : a < 256) (hb : b < 256) :
    ((a <<< 8) ||| b) % 65536 = a * 256 + b := by
  have h : (a <<< 8) ||| b = a * 256 + b := by
    rw [Nat.shiftLeft_eq, Nat.mul_comm a (2 ^ 8),
      ← Nat.mul_add_lt_is_or (show b < 2 ^ 8 by omega) a]
  rw [h]
  exact Nat.mod_eq_of_lt (by omega)

theorem byteAt_lt (data : List (Fin 256)) (i : Nat) : byteAt data i < 256 :=
  (data.getD i 0).isLt

/-- The loop of `AddHapticCommand` over any list of bits below 256, for the
drivers that record their calls. -/
theorem AddHapticCommand_loop (data : List (Fin 256)) (bits : List Nat)
    (hbits : ∀ b ∈ bits, b < 256) :
    ∀ calls : List (Nat × HapticCommand),
      bits.foldl
        (fun haptics bit =>
          if (byteAt data 0) &&& (1 <<< bit) ≠ 0 then
            recordInsert (bit % 256)
              { command := byteAt data 1, count := byteAt data 2, sequence := data.drop 3,
                timeout := (((byteAt data 11) <<< 8) ||| (byteAt data 12)) % 65536 }
              haptics
          else haptics)
        calls =
      calls ++ (bits.filter (fun b => (byteAt data 0).testBit b)).map
        (fun b => (b, decodedCommand data)) := by
  induction bits with
  | nil => intro calls; simp
  | cons b rest ih =>
    intro calls
    have hb : b % 256 = b := Nat.mod_eq_of_lt (hbits b (List.mem_cons_self b rest))
    have hrest : ∀ x ∈ rest, x < 256 := fun x hx => hbits x (List.mem_cons_of_mem b hx)
    rw [List.foldl_cons, ih hrest]
    by_cases hbit : (byteAt data 0).testBit b = true
    · have hc : (byteAt data 0) &&& (1 <<< b) ≠ 0 := (bit_selected _ _).mpr hbit
      rw [if_pos hc, List.filter_cons_of_pos hbit, List.map_cons]
      simp only [recordInsert, decodedCommand, hb,
        timeout_big_endian _ _ (byteAt_lt data 11) (byteAt_lt data 12), List.append_assoc,
        List.singleton_append]
    · have hc : ¬ ((byteAt data 0) &&& (1 <<< b) ≠ 0) := fun h => hbit ((bit_selected _ _).mp h)
      rw [if_neg hc, List.filter_cons_of_neg hbit]

/-- The `Insert` calls of `AddHapticCommand` for a payload of more than 12 bytes:
one per set bit of byte 0, in bit order, each with the decoded command. -/
theorem AddHapticCommand_calls (data : List (Fin 256)) (hlen : 12 < data.length) :
    AddHapticCommand recordInsert [] data =
      ((List.range 8).filter (fun b => (byteAt data 0).testBit b)).map
        (fun b => (b, decodedCommand data)) := by
  unfold AddHapticCommand
  rw [if_pos hlen]
  have h := AddHapticCommand_loop data (List.range 8)
    (fun b hb => by have := List.mem_range.mp hb; omega) []
  simpa using h

/-- C9: dispatch of `AddHapticCommand`.  For a payload longer than 12 bytes and
every bit `b` below 8, an `Insert` is addressed to actuator index `b` exactly
when bit `b` of byte 0 is set; every `Insert` made carries the same decoded
command, with command id byte 1, repeat count byte 2, the sequence pointer at
byte 3 (so its first 8 bytes are bytes 3 to 10) and timeout
byte 11 * 256 + byte 12; with bits 0 and 2 set, indices 0 and 2 both receive
that command. -/
theorem C9_haptic_dispatch (data : List (Fin 256)) (hlen : 12 < data.length) :
    (∀ b : Nat, b < 8 →
      ((∃ cmd, (b, cmd) ∈ AddHapticCommand recordInsert [] data) ↔
        (byteAt data 0).testBit b = true)) ∧
    (∀ entry ∈ AddHapticCommand recordInsert [] data,
      entry.1 < 8 ∧ (byteAt data 0).testBit entry.1 = true ∧
      entry.2.command = byteAt data 1 ∧ entry.2.count = byteAt data 2 ∧
      (∀ i : Nat, i < 8 → entry.2.sequence.get? i = data.get? (3 + i)) ∧
      8 ≤ entry.2.sequence.length ∧
      entry.2.timeout = byteAt data 11 * 256 + byteAt data 12 ∧
      entry.2 = decodedCommand data) ∧
    ((byteAt data 0).testBit 0 = true → (byteAt data 0).testBit 2 = true →
      (0, decodedCommand data) ∈ AddHapticCommand recordInsert [] data ∧
      (2, decodedCommand data) ∈ AddHapticCommand recordInsert [] data) := by
  rw [AddHapticCommand_calls data hlen]
  refine ⟨?_, ?_, ?_⟩
  · intro b hb
    simp only [List.mem_map, List.mem_filter, List.mem_range, Prod.mk.injEq]
    constructor
    · rintro ⟨cmd, x, ⟨_, hx⟩, rfl, _⟩
      exact hx
    · intro h
      exact ⟨decodedCommand data, b, ⟨hb, h⟩, rfl, rfl⟩
  · intro entry he
    simp only [List.mem_map, List.mem_filter, List.mem_range] at he
    obtain ⟨x, ⟨hx8, hx⟩, rfl⟩ := he
    refine ⟨hx8, hx, rfl, rfl, ?_, ?_, rfl, rfl⟩
    · intro i _
      simp [decodedCommand]
    · simp only [decodedCommand, List.length_drop]
      omega
  · intro h0 h2
    simp only [List.mem_map, List.mem_filter, List.mem_range, Prod.mk.injEq]
    exact ⟨⟨0, ⟨by decide, h0⟩, rfl, trivial⟩, ⟨2, ⟨by decide, h2⟩, rfl, trivial⟩⟩

/-- Witness of C9: the example payload, with mask 5, reaches indices 0 and 2. -/
theorem C9_haptic_dispatch_witness :
    12 < examplePayload.length ∧
    (0, decodedCommand examplePayload) ∈ AddHapticCommand recordInsert [] examplePayload ∧
    (2, decodedCommand examplePayload) ∈ AddHapticCommand recordInsert [] examplePayload :=
  ⟨by decide, (C9_haptic_dispatch examplePayload (by decide)).2.2 (by decide) (by decide)⟩

/-- C10: undersized payloads are dropped.  For a payload of at most 12 bytes,
whatever the haptic drivers and their state, `AddHapticCommand` returns the
state it was given, and the recording drivers receive no `Insert`. -/
theorem C10_haptic_undersized (data : List (Fin 256)) (hlen : data.length ≤ 12) :
    (∀ (σ : Type) (Insert : Nat → HapticCommand → σ → σ) (Haptics : σ),
      AddHapticCommand Insert Haptics data = Haptics) ∧
    AddHapticCommand recordInsert [] data = [] := by
  have hnot : ¬ (data.length > 12) := by omega
  constructor
  · intro σ Insert Haptics
    unfold AddHapticCommand
    rw [if_neg hnot]
  · unfold AddHapticCommand
    rw [if_neg hnot]

/-- Witness of C10: the first 12 bytes of the example payload reach no actuator. -/
theorem C10_haptic_undersized_witness :
    (examplePayload.take 12).length ≤ 12 ∧
    AddHapticCommand recordInsert [] (examplePayload.take 12) = [] :=
  ⟨by decide, (C10_haptic_undersized (examplePayload.take 12) (by decide)).2⟩

/-! ## Indicators -/

/-- The calls `UpdateIndicators` makes on the indicator driver. -/
theorem UpdateIndicators_calls (c : TinyController) (t : Tick) :
    (c.Suspended = true → (UpdateIndicators c t).IndicatorCalls = [IndicatorCall.Disable]) ∧
    (c.Suspended = false →
      ∃ red : LedEffects,
        (UpdateIndicators c t).IndicatorCalls =
          [IndicatorCall.SetBlue
              (if t.IndicatorAdvertising = true then LedEffects.Fade
               else if t.IndicatorBluetoothConnected = true then LedEffects.Pulse
               else LedEffects.Off),
           IndicatorCall.SetRed red,
           IndicatorCall.Update t.deltaTime
             (statusCode c.PowerSource t.IndicatorBluetoothConnected t.IndicatorAdvertising
               t.IndicatorUSBConnected)]) := by
  constructor
  · intro h
    simp [UpdateIndicators, h]
  · intro h
    refine ⟨if c.PowerSource == PowerSources.I2C then LedEffects.Pulse
      else if t.IndicatorBluetoothConnected || c.PowerSource != PowerSources.USB then
        LedEffects.Off
      else if t.IndicatorUSBConnected then LedEffects.On
      else LedEffects.Fade, ?_⟩
    simp only [UpdateIndicators, h, Bool.false_eq_true, if_false, statusCode, beq_iff_eq]

theorem Update_eq (T : Int) (c : TinyController) (t : Tick) :
    Update T c t = UpdateIndicators (UpdatePower (UpdateActivity T c t) t) t := rfl

theorem Update_PowerSource (T : Int) (c : TinyController) (t : Tick) :
    (Update T c t).PowerSource = t.NewPowerSource := by
  rw [Update_eq, (UpdateIndicators_flags _ t).2.2.1, (UpdatePower_keeps _ t).1]

/-- C13: indicator status code.  In a tick that ends not suspended the calls on
the indicator driver end with `Update(deltaTime, mode)`, where the mode is the
status code of the precedence DirectWire, wireless connected, wireless
advertising (F with USB connected, A without), USB connected, default D,
computed from the power source after the arbitration; in a tick that ends
suspended the only call is `Disable`, so no mode code is handed over. -/
theorem C13_indicator_status_code (T : Int) (c : TinyController) (t : Tick) :
    (Update T c t).PowerSource = t.NewPowerSource ∧
    ((Update T c t).Suspended = false →
      ∃ blue red : LedEffects,
        (Update T c t).IndicatorCalls =
          [IndicatorCall.SetBlue blue, IndicatorCall.SetRed red,
           IndicatorCall.Update t.deltaTime
             (statusCode (Update T c t).PowerSource t.IndicatorBluetoothConnected
               t.IndicatorAdvertising t.IndicatorUSBConnected)]) ∧
    ((Update T c t).Suspended = true →
      (Update T c t).IndicatorCalls = [IndicatorCall.Disable] ∧
      ∀ (d : Int) (mode : Char),
        IndicatorCall.Update d mode ∉ (Update T c t).IndicatorCalls) ∧
    statusCode PowerSources.I2C t.IndicatorBluetoothConnected t.IndicatorAdvertising
      t.IndicatorUSBConnected = 'I' ∧
    (∀ s : PowerSources, s ≠ PowerSources.I2C →
      statusCode s true t.IndicatorAdvertising t.IndicatorUSBConnected = 'B' ∧
      statusCode s false true true = 'F' ∧
      statusCode s false true false = 'A' ∧
      statusCode s false false true = 'U' ∧
      statusCode s false false false = 'D') := by
  have hi := UpdateIndicators_flags (UpdatePower (UpdateActivity T c t) t) t
  have hc := UpdateIndicators_calls (UpdatePower (UpdateActivity T c t) t) t
  refine ⟨Update_PowerSource T c t, ?_, ?_, rfl, ?_⟩
  · intro h
    rw [Update_eq, hi.2.2.2.1] at h
    obtain ⟨red, hred⟩ := hc.2 h
    refine ⟨if t.IndicatorAdvertising = true then LedEffects.Fade
      else if t.IndicatorBluetoothConnected = true then LedEffects.Pulse
      else LedEffects.Off, red, ?_⟩
    rw [Update_eq, hred, hi.2.2.1]
  · intro h
    rw [Update_eq, hi.2.2.2.1] at h
    rw [Update_eq, hc.1 h]
    refine ⟨rfl, ?_⟩
    intro d mode hmem
    simp at hmem
  · intro s hs
    cases s <;> simp [statusCode] at hs ⊢

/-- C17, the code at a failing input: a tick on battery power, not suspended,
in which wireless is connected throughout and is also advertising when the
indicators are derived.  The blue channel is set to the advertising effect
(Fade), not to the connected effect (Pulse) that the same tick without
advertising gives, while the red channel and the status code B of the same call
treat the tick as connected. -/
theorem C17_blue_effect_connected_and_advertising :
    (Update 100 exampleController connectedAdvertisingTick).Suspended = false ∧
    (Update 100 exampleController connectedAdvertisingTick).BluetoothActive = true ∧
    (Update 100 exampleController connectedAdvertisingTick).IndicatorCalls =
      [IndicatorCall.SetBlue LedEffects.Fade, IndicatorCall.SetRed LedEffects.Off,
       IndicatorCall.Update 10 'B'] ∧
    (Update 100 exampleController
      { connectedAdvertisingTick with IndicatorAdvertising := false }).IndicatorCalls =
      [IndicatorCall.SetBlue LedEffects.Pulse, IndicatorCall.SetRed LedEffects.Off,
       IndicatorCall.Update 10 'B'] := by
  decide

/-! ## Stability of the arbitration, and the USB flag -/

theorem arbitrationRules_idempotent (prev cur : PowerSources) (wc ic : Bool) (f : Bool × Bool) :
    arbitrationRules prev cur wc ic (arbitrationRules prev cur wc ic f) =
      arbitrationRules prev cur wc ic f := by
  cases prev <;> cases cur <;> cases wc <;> cases ic <;> simp [arbitrationRules]

/-- With the source unchanged and the wireless connection unchanged, the rule
list leaves a pair alone, unless the source is DirectWire. -/
theorem arbitrationRules_stable (p : PowerSources) (w : Bool) (f : Bool × Bool)
    (hp : p ≠ PowerSources.I2C) : arbitrationRules p p w w f = f := by
  cases p <;> cases w <;> simp [arbitrationRules] at hp ⊢

theorem arbitrationRules_I2C (prev : PowerSources) (wc ic : Bool) (f : Bool × Bool) :
    arbitrationRules prev PowerSources.I2C wc ic f = (false, false) := by
  simp [arbitrationRules]

/-- The rule list keeps "USB active exactly on USB power". -/
theorem arbitrationRules_usb (prev cur : PowerSources) (wc ic u b : Bool)
    (h : u = true ↔ prev = PowerSources.USB) :
    (arbitrationRules prev cur wc ic (u, b)).1 = true ↔ cur = PowerSources.USB := by
  cases prev <;> cases cur <;> cases wc <;> cases ic <;> cases u <;>
    simp [arbitrationRules] at h ⊢

/-- The toggle button never switches USB off, and switches it on only on USB
power. -/
theorem UpdateActivity_usb (T : Int) (c : TinyController) (t : Tick)
    (h : c.USBActive = true ↔ c.PowerSource = PowerSources.USB) :
    (UpdateActivity T c t).USBActive = c.USBActive := by
  rcases UpdateActivity_flags T c t with ⟨_, h2, _⟩ | ⟨_, h2, _⟩
  · exact h2
  · rw [h2]
    revert h
    cases c.USBActive <;> cases c.BluetoothActive <;> cases c.PowerSource <;> simp

theorem Update_usb (T : Int) (c : TinyController) (t : Tick)
    (h : c.USBActive = true ↔ c.PowerSource = PowerSources.USB) :
    (Update T c t).USBActive = true ↔ (Update T c t).PowerSource = PowerSources.USB := by
  have hf := Update_flags T c t
  have h1 : (Update T c t).USBActive = _ := congrArg Prod.fst hf
  rw [h1, Update_PowerSource, UpdateActivity_usb T c t h]
  exact arbitrationRules_usb _ _ _ _ _ _ h

theorem Run_usb (T : Int) (ticks : List Tick) :
    ∀ c : TinyController, (c.USBActive = true ↔ c.PowerSource = PowerSources.USB) →
      ((Run T c ticks).USBActive = true ↔ (Run T c ticks).PowerSource = PowerSources.USB) := by
  induction ticks with
  | nil => intro c h; exact h
  | cons t rest ih =>
    intro c h
    exact ih (Update T c t) (Update_usb T c t h)

theorem Init_flags (c : TinyController) (source : PowerSources) :
    (Init c source).PowerSource = source ∧
    (Init c source).USBActive = decide (source = PowerSources.USB) ∧
    (Init c source).BluetoothActive = decide (source ≠ PowerSources.USB) := by
  cases source <;> simp [Init]

/-- C14: idempotence of the power arbitration.  When the second of two
consecutive ticks sees the source the first tick ended with, before and after
`Power.Update`, sees a wireless connection status that does not change within
the tick, and fires no toggle, the pair (USB active, wireless active) after the
second tick is the pair after the first; and the rule list applied to its own
result under the same inputs changes nothing. -/
theorem C14_arbitration_idempotent (T : Int) (c : TinyController) (t1 t2 : Tick)
    (hsource : t2.NewPowerSource = t1.NewPowerSource)
    (hconn : t2.BluetoothIsConnected = t2.BluetoothWasConnected)
    (hquiet : (Update T (Update T c t1) t2).Triggered = (Update T c t1).Triggered) :
    (Update T c t1).PowerSource = t1.NewPowerSource ∧
    (Update T (Update T c t1) t2).PowerSource = t1.NewPowerSource ∧
    activation (Update T (Update T c t1) t2) = activation (Update T c t1) ∧
    (∀ (prev cur : PowerSources) (wc ic : Bool) (f : Bool × Bool),
      arbitrationRules prev cur wc ic (arbitrationRules prev cur wc ic f) =
        arbitrationRules prev cur wc ic f) := by
  have hp1 := Update_PowerSource T c t1
  have hp2 := Update_PowerSource T (Update T c t1) t2
  refine ⟨hp1, by rw [hp2, hsource], ?_, arbitrationRules_idempotent⟩
  have hf2 : activation (Update T (Update T c t1) t2) =
      arbitrationRules (Update T c t1).PowerSource t2.NewPowerSource t2.BluetoothWasConnected
        t2.BluetoothIsConnected (activation (UpdateActivity T (Update T c t1) t2)) :=
    Update_flags T (Update T c t1) t2
  have hact : activation (UpdateActivity T (Update T c t1) t2) = activation (Update T c t1) := by
    rw [Update_Triggered] at hquiet
    rcases UpdateActivity_flags T (Update T c t1) t2 with ⟨_, h2, h3⟩ | ⟨h1, _, _⟩
    · simp only [activation, h2, h3]
    · omega
  rw [hf2, hact, hp1, hsource, hconn]
  by_cases hI : t1.NewPowerSource = PowerSources.I2C
  · have hf1 : activation (Update T c t1) =
        arbitrationRules c.PowerSource t1.NewPowerSource t1.BluetoothWasConnected
          t1.BluetoothIsConnected (activation (UpdateActivity T c t1)) := Update_flags T c t1
    rw [hI, arbitrationRules_I2C, hf1, hI, arbitrationRules_I2C]
  · exact arbitrationRules_stable _ _ _ hI

/-- Witness of C14: two ticks that both report USB power and no connection. -/
theorem C14_arbitration_idempotent_witness :
    activation (Update 100 (Update 100 exampleController exampleTick) exampleTick) =
      activation (Update 100 exampleController exampleTick) :=
  (C14_arbitration_idempotent 100 exampleController exampleTick exampleTick rfl rfl
    (by decide)).2.2.1

/-- C19: USB activation tracks the power source.  In the state reached from
`Init` by any sequence of `Update` ticks, USB is active if and only if the power
source is USB, so it is inactive on battery and on DirectWire power; and no call
of `UpdateSelectButton` switches an active USB off. -/
theorem C19_usb_tracks_power_source (T : Int) (c0 : TinyController) (source : PowerSources)
    (ticks : List Tick) :
    ((Run T (Init c0 source) ticks).USBActive = true ↔
      (Run T (Init c0 source) ticks).PowerSource = PowerSources.USB) ∧
    ((Run T (Init c0 source) ticks).PowerSource = PowerSources.Battery →
      (Run T (Init c0 source) ticks).USBActive = false) ∧
    ((Run T (Init c0 source) ticks).PowerSource = PowerSources.I2C →
      (Run T (Init c0 source) ticks).USBActive = false) ∧
    (∀ (c : TinyController) (d : Int) (b : Bool), c.USBActive = true →
      (UpdateSelectButton T c d b).USBActive = true) := by
  have hinit : (Init c0 source).USBActive = true ↔
      (Init c0 source).PowerSource = PowerSources.USB := by
    rw [(Init_flags c0 source).1, (Init_flags c0 source).2.1]
    simp
  have h := Run_usb T ticks (Init c0 source) hinit
  refine ⟨h, ?_, ?_, ?_⟩
  · intro hb
    cases hu : (Run T (Init c0 source) ticks).USBActive
    · rfl
    · rw [h.mp hu] at hb
      exact absurd hb (by decide)
  · intro hb
    cases hu : (Run T (Init c0 source) ticks).USBActive
    · rfl
    · rw [h.mp hu] at hb
      exact absurd hb (by decide)
  · intro c d b hc
    rcases UpdateSelectButton_flags T c d b with ⟨_, h2, _⟩ | ⟨_, h2, _⟩
    · rw [h2, hc]
    · rw [h2, hc]
      rfl

/-- C20: initial transport activation.  Right after `Init` exactly one transport
is active: USB alone when the source is USB, wireless alone when the source is
Battery or DirectWire; and a device started on DirectWire power, whose wireless
is therefore active, has both transports inactive after a first tick that still
reports DirectWire. -/
theorem C20_initial_activation (c : TinyController) (source : PowerSources) :
    (Init c source).PowerSource = source ∧
    (source = PowerSources.USB → activation (Init c source) = (true, false)) ∧
    (source = PowerSources.Battery → activation (Init c source) = (false, true)) ∧
    (source = PowerSources.I2C → activation (Init c source) = (false, true)) ∧
    ((Init c source).USBActive = true ↔ (Init c source).BluetoothActive = false) ∧
    (∀ (T : Int) (t : Tick), t.NewPowerSource = PowerSources.I2C →
      (Init c PowerSources.I2C).BluetoothActive = true ∧
      activation (Update T (Init c PowerSources.I2C) t) = (false, false)) := by
  refine ⟨(Init_flags c source).1, ?_, ?_, ?_, ?_, ?_⟩
  · intro h; rw [h]; simp [activation, Init]
  · intro h; rw [h]; simp [activation, Init]
  · intro h; rw [h]; simp [activation, Init]
  · cases source <;> simp [Init]
  · intro T t ht
    refine ⟨by simp [Init], ?_⟩
    have hf : activation (Update T (Init c PowerSources.I2C) t) =
        arbitrationRules (Init c PowerSources.I2C).PowerSource t.NewPowerSource
          t.BluetoothWasConnected t.BluetoothIsConnected
          (activation (UpdateActivity T (Init c PowerSources.I2C) t)) :=
      Update_flags T (Init c PowerSources.I2C) t
    rw [hf, ht, arbitrationRules_I2C]

/-! ## The HID report -/

theorem toInt8_of_range (x : Int) (hlo : -128 ≤ x) (hhi : x ≤ 127) : toInt8 x = x := by
  unfold toInt8
  omega

theorem packButton_eq (Inputs : List InputBank) (H : Int) (buttons i : Nat) (hi : i < 32) :
    packButton Inputs H buttons i =
      (buttons ||| ((maskButton Inputs H i).toNat <<< i)) % 2 ^ 32 := by
  unfold packButton maskButton
  rw [toInt8_of_range ((i : Int) + 4) (by omega) (by omega)]
  split_ifs <;> rfl

/-- One pass of the packing loop sets bit `i` to the selected button and leaves
the other bits of the 32-bit mask alone. -/
theorem testBit_packButton (Inputs : List InputBank) (H : Int) (buttons i : Nat) (hi : i < 32)
    (j : Nat) :
    (packButton Inputs H buttons i).testBit j =
      (decide (j < 32) && (buttons.testBit j || (decide (j = i) && maskButton Inputs H i))) := by
  rw [packButton_eq Inputs H buttons i hi, Nat.testBit_mod_two_pow, Nat.testBit_or,
    Nat.testBit_shiftLeft, Nat.testBit_bool_to_nat]
  by_cases hji : j = i
  · subst hji
    simp
  · have : ¬ (j - i = 0 ∧ j ≥ i) := by omega
    by_cases hge : j ≥ i
    · have h0 : ¬ (j - i = 0) := by omega
      simp [hji, hge, h0]
    · simp [hji, hge]

theorem testBit_packButtons (Inputs : List InputBank) (H : Int) (l : List Nat)
    (hl : ∀ i ∈ l, i < 32) :
    ∀ (buttons : Nat), buttons < 2 ^ 32 → ∀ j : Nat,
      (l.foldl (packButton Inputs H) buttons).testBit j =
        (decide (j < 32) &&
          (buttons.testBit j || (decide (j ∈ l) && maskButton Inputs H j))) := by
  induction l with
  | nil =>
    intro buttons hb j
    by_cases hj : j < 32
    · simp [hj]
    · have : buttons < 2 ^ j :=
        lt_of_lt_of_le hb (Nat.pow_le_pow_right (by decide) (by omega))
      simp [hj, Nat.testBit_lt_two_pow this]
  | cons i rest ih =>
    intro buttons _ j
    have hi : i < 32 := hl i (List.mem_cons_self i rest)
    have hrest : ∀ x ∈ rest, x < 32 := fun x hx => hl x (List.mem_cons_of_mem i hx)
    have hlt : packButton Inputs H buttons i < 2 ^ 32 := by
      rw [packButton_eq Inputs H buttons i hi]
      exact Nat.mod_lt _ (by decide)
    rw [List.foldl_cons, ih hrest _ hlt j, testBit_packButton Inputs H buttons i hi j]
    by_cases hji : j = i
    · subst hji
      cases decide (j < 32) <;> cases buttons.testBit j <;> cases maskButton Inputs H j <;>
        simp
    · have hmem : (j ∈ i :: rest) ↔ j ∈ rest := by simp [hji]
      simp only [hji, hmem, decide_False, Bool.false_and, Bool.or_false]
      cases decide (j < 32) <;> simp

/-- The bits of the button mask of `MakeHidReport`. -/
theorem testBit_buttons (Inputs : List InputBank) (H : Int) (j : Nat) :
    (MakeHidReport Inputs H).buttons.testBit j =
      (decide (j < 32) && maskButton Inputs H j) := by
  show ((List.range 32).foldl (packButton Inputs H) 0).testBit j = _
  rw [testBit_packButtons Inputs H (List.range 32) (fun i hi => List.mem_range.mp hi) 0
    (by decide) j]
  by_cases hj : j < 32
  · simp [hj, List.mem_range]
  · simp [hj]

/-- C11: HID button packing.  For every bit position `i` below 32, bit `i` of
the button mask is `GetButton(i)` when the hat offset is negative or `i` is
below the hat offset `H`, and `GetButton(i + 4)` when `H` is not negative and
`i` is at least `H`; the mask has no bit from 32 on; so with the hat enabled the
mask is the same for any two button states that differ only at the four indices
`H` to `H + 3`. -/
theorem C11_hid_button_packing (Inputs : List InputBank) (H : Int) (i : Nat) (hi : i < 32) :
    ((H < 0 ∨ (i : Int) < H) →
      (MakeHidReport Inputs H).buttons.testBit i = GetButton Inputs (i : Int)) ∧
    (0 ≤ H → H ≤ (i : Int) →
      (MakeHidReport Inputs H).buttons.testBit i = GetButton Inputs ((i : Int) + 4)) ∧
    (MakeHidReport Inputs H).buttons < 2 ^ 32 ∧
    (0 ≤ H → ∀ Inputs2 : List InputBank,
      (∀ j : Int, (j < H ∨ H + 4 ≤ j) → GetButton Inputs2 j = GetButton Inputs j) →
      (MakeHidReport Inputs2 H).buttons = (MakeHidReport Inputs H).buttons) := by
  have hbit := testBit_buttons Inputs H i
  simp only [hi, decide_True, Bool.true_and] at hbit
  refine ⟨?_, ?_, ?_, ?_⟩
  · intro h
    rw [hbit, maskButton, if_pos h]
  · intro h0 h1
    have hn : ¬ (H < 0 ∨ (i : Int) < H) := by omega
    rw [hbit, maskButton, if_neg hn]
  · apply Nat.lt_pow_two_of_testBit
    intro j hj
    rw [testBit_buttons]
    have : ¬ (j < 32) := by omega
    simp [this]
  · intro h0 Inputs2 hsame
    apply Nat.eq_of_testBit_eq
    intro j
    rw [testBit_buttons, testBit_buttons]
    congr 1
    unfold maskButton
    split_ifs with hc
    · exact hsame _ (Or.inl (by omega))
    · exact hsame _ (Or.inr (by omega))

/-- Witness of C11: with the hat at offset 2, bit 1 of the mask is button 1 and
bit 1 is below the offset. -/
theorem C11_hid_button_packing_witness :
    1 < 32 ∧ (MakeHidReport hatBanks 2).buttons.testBit 1 = GetButton hatBanks ((1 : Nat) : Int) :=
  ⟨by decide, (C11_hid_button_packing hatBanks 2 1 (by decide)).1 (Or.inr (by decide))⟩

/-- C12: hat decoding.  With the hat disabled (offset below 0) the hat is
Centered whatever the buttons.  With the hat enabled at an offset `H` whose four
indices `H` to `H + 3` are `int8_t` values, and Up, Right, Down, Left the
buttons `H`, `H + 1`, `H + 2`, `H + 3`: none held gives Centered; exactly one
held gives its cardinal direction; exactly two adjacent ones held give the
diagonal between them; and Up with Left gives Up-Left, otherwise Up with Right
gives Up-Right, otherwise Up gives Up. -/
theorem C12_hat_decoding (Inputs : List InputBank) (H : Int) :
    (H < 0 → (MakeHidReport Inputs H).hat = GamepadHat.CENTERED) ∧
    (0 ≤ H → H ≤ 124 →
      ∀ up right down left : Bool,
        up = GetButton Inputs H → right = GetButton Inputs (H + 1) →
        down = GetButton Inputs (H + 2) → left = GetButton Inputs (H + 3) →
        ((up = false ∧ right = false ∧ down = false ∧ left = false) →
          (MakeHidReport Inputs H).hat = GamepadHat.CENTERED) ∧
        ((up = true ∧ right = false ∧ down = false ∧ left = false) →
          (MakeHidReport Inputs H).hat = GamepadHat.UP) ∧
        ((up = false ∧ right = true ∧ down = false ∧ left = false) →
          (MakeHidReport Inputs H).hat = GamepadHat.RIGHT) ∧
        ((up = false ∧ right = false ∧ down = true ∧ left = false) →
          (MakeHidReport Inputs H).hat = GamepadHat.DOWN) ∧
        ((up = false ∧ right = false ∧ down = false ∧ left = true) →
          (MakeHidReport Inputs H).hat = GamepadHat.LEFT) ∧
        ((up = true ∧ right = true ∧ down = false ∧ left = false) →
          (MakeHidReport Inputs H).hat = GamepadHat.UP_RIGHT) ∧
        ((up = false ∧ right = true ∧ down = true ∧ left = false) →
          (MakeHidReport Inputs H).hat = GamepadHat.DOWN_RIGHT) ∧
        ((up = false ∧ right = false ∧ down = true ∧ left = true) →
          (MakeHidReport Inputs H).hat = GamepadHat.DOWN_LEFT) ∧
        ((up = true ∧ right = false ∧ down = false ∧ left = true) →
          (MakeHidReport Inputs H).hat = GamepadHat.UP_LEFT) ∧
        ((up = true ∧ left = true) →
          (MakeHidReport Inputs H).hat = GamepadHat.UP_LEFT) ∧
        ((up = true ∧ left = false ∧ right = true) →
          (MakeHidReport Inputs H).hat = GamepadHat.UP_RIGHT) ∧
        ((up = true ∧ left = false ∧ right = false) →
          (MakeHidReport Inputs H).hat = GamepadHat.UP)) := by
  constructor
  · intro h
    show hatField Inputs H = _
    simp [hatField, h]
  · intro h0 h124 up right down left hu hr hd hl
    have hn : ¬ (H < 0) := by omega
    have e1 : toInt8 (H + 1) = H + 1 := toInt8_of_range _ (by omega) (by omega)
    have e2 : toInt8 (H + 2) = H + 2 := toInt8_of_range _ (by omega) (by omega)
    have e3 : toInt8 (H + 3) = H + 3 := toInt8_of_range _ (by omega) (by omega)
    have hhat : (MakeHidReport Inputs H).hat = hatField Inputs H := rfl
    rw [hhat]
    unfold hatField
    rw [if_neg hn, e1, e2, e3, ← hu, ← hr, ← hd, ← hl]
    cases up <;> cases right <;> cases down <;> cases left <;> simp

/-- Witness of C12: on the example banks with the hat at offset 2, where buttons
2 (Up) and 5 (Left) of the four are held, the hat is Up-Left. -/
theorem C12_hat_decoding_witness :
    (0 : Int) ≤ 2 ∧ (2 : Int) ≤ 124 ∧ (MakeHidReport hatBanks 2).hat = GamepadHat.UP_LEFT :=
  ⟨by decide, by decide,
    ((C12_hat_decoding hatBanks 2).2 (by decide) (by decide) true false false true
      (by decide) (by decide) (by decide) (by decide)).2.2.2.2.2.2.2.2.1
      ⟨rfl, rfl, rfl, rfl⟩⟩

theorem GetAxis_beyond (banks : List InputBank) (hcounts : ∀ b ∈ banks, 0 ≤ b.AxisCount)
    (k : Int) (hk : 0 ≤ k) (hle : totalAxisCount banks ≤ k) : GetAxis banks k = 0 := by
  rw [GetAxis_eq_resolveRead,
    resolveRead_eq_getD InputBank.AxisCount InputBank.Axis 0 banks hcounts k hk]
  apply List.getD_eq_default
  have hlen := concatReads_length InputBank.AxisCount InputBank.Axis banks hcounts
  rw [← totalAxisCount_eq_totalCount] at hlen
  omega

/-- Truncation keeps a value between -127 and 127 there, so that the conversion
to `int8_t` does not change it. -/
theorem truncate_bounds (q : ℚ) (hlo : -127 ≤ q) (hhi : q ≤ 127) :
    -127 ≤ truncate q ∧ truncate q ≤ 127 := by
  unfold truncate
  split_ifs with h
  · constructor
    · have : (0 : Int) ≤ ⌊q⌋ := Int.floor_nonneg.mpr h
      omega
    · have : ⌊q⌋ < 128 := Int.floor_lt.mpr (by push_cast; linarith)
      omega
  · constructor
    · have : (-128 : Int) < ⌈q⌉ := Int.lt_ceil.mpr (by push_cast; linarith)
      omega
    · have : ⌈q⌉ ≤ 0 := Int.ceil_le.mpr (by push_cast; linarith)
      omega

/-! ### Rounding to a float -/

theorem roundHalfEven_cases (x : ℚ) : roundHalfEven x = ⌊x⌋ ∨
    (roundHalfEven x = ⌊x⌋ + 1 ∧ 1 / 2 ≤ x - ⌊x⌋) := by
  unfold roundHalfEven
  split_ifs with h1 h2 h3
  · left; rfl
  · right; exact ⟨rfl, le_of_lt h2⟩
  · left; rfl
  · right; exact ⟨rfl, not_lt.mp h1⟩

theorem roundHalfEven_le (x : ℚ) (N : Int) (h : x ≤ N) : roundHalfEven x ≤ N := by
  have hfl : (⌊x⌋ : ℚ) ≤ x := Int.floor_le x
  rcases roundHalfEven_cases x with h1 | ⟨h1, h2⟩
  · rw [h1]
    exact_mod_cast le_trans hfl h
  · rw [h1]
    have : (⌊x⌋ : ℚ) < N := by linarith
    have : ⌊x⌋ < N := by exact_mod_cast this
    omega

theorem le_roundHalfEven (x : ℚ) (N : Int) (h : (N : ℚ) ≤ x) : N ≤ roundHalfEven x := by
  have hfl : N ≤ ⌊x⌋ := Int.le_floor.mpr h
  rcases roundHalfEven_cases x with h1 | ⟨h1, _⟩ <;> rw [h1] <;> omega

theorem roundHalfEven_error (x : ℚ) : |(roundHalfEven x : ℚ) - x| ≤ 1 / 2 := by
  have h0 : (⌊x⌋ : ℚ) ≤ x := Int.floor_le x
  have h1 : x < ⌊x⌋ + 1 := Int.lt_floor_add_one x
  rw [abs_le]
  unfold roundHalfEven
  split_ifs with a b c
  · constructor <;> linarith
  · push_cast
    constructor <;> linarith
  · have : x - ⌊x⌋ = 1 / 2 := le_antisymm (not_lt.mp b) (not_lt.mp a)
    constructor <;> linarith
  · have : x - ⌊x⌋ = 1 / 2 := le_antisymm (not_lt.mp b) (not_lt.mp a)
    push_cast
    constructor <;> linarith

/-- The scale of a float of magnitude below 128: a power of two, at most
`1 / 2 ^ 17`, whose inverse is a power of two. -/
theorem float_scale (q : ℚ) (hq0 : q ≠ 0) (hq : |q| < 128) :
    ∃ k : ℕ, 17 ≤ k ∧
      (2 : ℚ) ^ (max (Int.log 2 |q|) (-126) - 23) = 1 / 2 ^ k := by
  have hpos : 0 < |q| := abs_pos.mpr hq0
  have hlog : Int.log 2 |q| < 7 := by
    apply (Int.lt_zpow_iff_log_lt (by norm_num) hpos).mp
    norm_num
    exact hq
  refine ⟨(23 - max (Int.log 2 |q|) (-126)).toNat, by omega, ?_⟩
  have hk : ((23 - max (Int.log 2 |q|) (-126)).toNat : ℤ) = 23 - max (Int.log 2 |q|) (-126) :=
    Int.toNat_of_nonneg (by omega)
  rw [one_div, ← zpow_natCast, hk, ← zpow_neg]
  congr 1
  omega

theorem roundFloat32_eq (q : ℚ) (hq0 : q ≠ 0) (hq : |q| < 128) :
    ∃ k : ℕ, 17 ≤ k ∧ roundFloat32 q = (roundHalfEven (q * 2 ^ k) : ℚ) / 2 ^ k := by
  obtain ⟨k, hk, hs⟩ := float_scale q hq0 hq
  refine ⟨k, hk, ?_⟩
  unfold roundFloat32
  rw [if_neg hq0]
  simp only [hs]
  rw [div_div_eq_mul_div, div_one, mul_one_div]

/-- Rounding to a float does not cross an integer, for magnitudes below 128. -/
theorem roundFloat32_le (q : ℚ) (hq : |q| < 128) (m : Int) (h : q ≤ m) :
    roundFloat32 q ≤ m := by
  by_cases hq0 : q = 0
  · rw [hq0] at h ⊢
    simpa [roundFloat32] using h
  · obtain ⟨k, _, hk⟩ := roundFloat32_eq q hq0 hq
    rw [hk]
    have hpow : (0 : ℚ) < 2 ^ k := by positivity
    have h1 : q * 2 ^ k ≤ ((m * 2 ^ k : Int) : ℚ) := by
      push_cast
      exact mul_le_mul_of_nonneg_right h (le_of_lt hpow)
    have h2 := roundHalfEven_le _ _ h1
    have h3 : (roundHalfEven (q * 2 ^ k) : ℚ) ≤ ((m * 2 ^ k : Int) : ℚ) := by exact_mod_cast h2
    rw [div_le_iff₀ hpow]
    push_cast at h3
    exact h3

theorem le_roundFloat32 (q : ℚ) (hq : |q| < 128) (m : Int) (h : (m : ℚ) ≤ q) :
    (m : ℚ) ≤ roundFloat32 q := by
  by_cases hq0 : q = 0
  · rw [hq0] at h ⊢
    simpa [roundFloat32] using h
  · obtain ⟨k, _, hk⟩ := roundFloat32_eq q hq0 hq
    rw [hk]
    have hpow : (0 : ℚ) < 2 ^ k := by positivity
    have h1 : ((m * 2 ^ k : Int) : ℚ) ≤ q * 2 ^ k := by
      push_cast
      exact mul_le_mul_of_nonneg_right h (le_of_lt hpow)
    have h2 := le_roundHalfEven _ _ h1
    have h3 : ((m * 2 ^ k : Int) : ℚ) ≤ (roundHalfEven (q * 2 ^ k) : ℚ) := by exact_mod_cast h2
    rw [le_div_iff₀ hpow]
    push_cast at h3
    exact h3

/-- The rounding error of a float of magnitude below 128 is at most
`1 / 2 ^ 18`. -/
theorem roundFloat32_error (q : ℚ) (hq : |q| < 128) :
    |roundFloat32 q - q| ≤ 1 / 2 ^ 18 := by
  by_cases hq0 : q = 0
  · rw [hq0]
    simp [roundFloat32]
  · obtain ⟨k, hk17, hk⟩ := roundFloat32_eq q hq0 hq
    rw [hk]
    have hpow : (0 : ℚ) < 2 ^ k := by positivity
    have herr := roundHalfEven_error (q * 2 ^ k)
    have hrw : (roundHalfEven (q * 2 ^ k) : ℚ) / 2 ^ k - q =
        ((roundHalfEven (q * 2 ^ k) : ℚ) - q * 2 ^ k) / 2 ^ k := by
      field_simp
      ring
    rw [hrw, abs_div, abs_of_pos hpow, div_le_iff₀ hpow]
    have h17 : (2 : ℚ) ^ 17 ≤ 2 ^ k := pow_le_pow_right₀ (by norm_num) hk17
    calc |(roundHalfEven (q * 2 ^ k) : ℚ) - q * 2 ^ k| ≤ 1 / 2 := herr
      _ = 1 / 2 ^ 18 * 2 ^ 17 := by norm_num
      _ ≤ 1 / 2 ^ 18 * 2 ^ k := mul_le_mul_of_nonneg_left h17 (by norm_num)

theorem truncate_spec (p : ℚ) :
    (0 ≤ p → 0 ≤ truncate p ∧ (truncate p : ℚ) ≤ p ∧ p < truncate p + 1) ∧
    (p ≤ 0 → truncate p ≤ 0 ∧ p ≤ truncate p ∧ (truncate p : ℚ) - 1 < p) := by
  unfold truncate
  constructor
  · intro h
    rw [if_pos h]
    exact ⟨Int.floor_nonneg.mpr h, Int.floor_le p, Int.lt_floor_add_one p⟩
  · intro h
    by_cases h0 : 0 ≤ p
    · have : p = 0 := le_antisymm h h0
      subst this
      simp
    · rw [if_neg h0]
      refine ⟨Int.ceil_le.mpr (by simpa using h), Int.le_ceil p, ?_⟩
      have := Int.ceil_lt_add_one p
      linarith

/-- The float product of the axis `2113665 / 2 ^ 28` and 127: the exact product
`1 - 1 / 2 ^ 28` lies in the binade of spacing `1 / 2 ^ 24` and rounds to 1. -/
theorem roundFloat32_example :
    roundFloat32 (2113665 / 268435456 * 127) = 1 := by
  have hq : (2113665 / 268435456 * 127 : ℚ) = 268435455 / 268435456 := by norm_num
  have hpos : (0 : ℚ) < |268435455 / 268435456| := by norm_num
  have habs : |(268435455 / 268435456 : ℚ)| = 268435455 / 268435456 := abs_of_pos (by norm_num)
  have h1 : (-1 : ℤ) ≤ Int.log 2 |(268435455 / 268435456 : ℚ)| := by
    apply (Int.zpow_le_iff_le_log (by norm_num) hpos).mp
    rw [habs]
    norm_num
  have h2 : Int.log 2 |(268435455 / 268435456 : ℚ)| < 0 := by
    apply (Int.lt_zpow_iff_log_lt (by norm_num) hpos).mp
    rw [habs]
    norm_num
  have hlog : Int.log 2 |(268435455 / 268435456 : ℚ)| = -1 := by omega
  have hfloor : ⌊(268435455 / 16 : ℚ)⌋ = 16777215 :=
    Int.floor_eq_iff.mpr ⟨by norm_num, by norm_num⟩
  have hx : (268435455 / 268435456 : ℚ) / 2 ^ ((-1 : ℤ) - 23) = 268435455 / 16 := by
    norm_num [zpow_neg]
  rw [hq]
  unfold roundFloat32
  rw [if_neg (by norm_num), hlog]
  simp only [show max (-1 : ℤ) (-126) = -1 by decide, hx]
  unfold roundHalfEven
  rw [hfloor]
  norm_num [zpow_neg]

/-- The field of an axis whose product with 127 has magnitude at most 127:
what the float product and its truncation are. -/
theorem axisField_of_range (Inputs : List InputBank) (n : Int)
    (hlo : -127 ≤ GetAxis Inputs n * 127) (hhi : GetAxis Inputs n * 127 ≤ 127) :
    axisField Inputs n = truncate (roundFloat32 (GetAxis Inputs n * 127)) ∧
    -127 ≤ roundFloat32 (GetAxis Inputs n * 127) ∧
    roundFloat32 (GetAxis Inputs n * 127) ≤ 127 ∧
    -127 ≤ axisField Inputs n ∧ axisField Inputs n ≤ 127 := by
  have habs : |GetAxis Inputs n * 127| < 128 := by
    rw [abs_lt]
    constructor <;> linarith
  have h1 : ((-127 : Int) : ℚ) ≤ roundFloat32 (GetAxis Inputs n * 127) :=
    le_roundFloat32 _ habs (-127) (by push_cast; linarith)
  have h2 : roundFloat32 (GetAxis Inputs n * 127) ≤ ((127 : Int) : ℚ) :=
    roundFloat32_le _ habs 127 (by push_cast; linarith)
  push_cast at h1 h2
  have hb := truncate_bounds _ h1 h2
  have hid : axisField Inputs n = truncate (roundFloat32 (GetAxis Inputs n * 127)) :=
    toInt8_of_range _ (by omega) (by omega)
  rw [hid]
  exact ⟨rfl, h1, h2, hb⟩

/-- C15, as stated, fails: for the axis value `2113665 / 2 ^ 28`, which lies
between -1 and 1, the exact product with 127 is `1 - 1 / 2 ^ 28` and its
truncation is 0, while the float product is 1 and the field `x` is 1. -/
theorem C15_hid_axis_scaling_counterexample :
    GetAxis roundingBanks 0 = 2113665 / 268435456 ∧
    -1 ≤ GetAxis roundingBanks 0 ∧ GetAxis roundingBanks 0 ≤ 1 ∧
    truncate (GetAxis roundingBanks 0 * 127) = 0 ∧
    roundFloat32 (GetAxis roundingBanks 0 * 127) = 1 ∧
    (MakeHidReport roundingBanks (-1)).x = 1 := by
  have ha : GetAxis roundingBanks 0 = 2113665 / 268435456 := by
    simp [GetAxis, roundingBanks]
  have hr : roundFloat32 (GetAxis roundingBanks 0 * 127) = 1 := by
    rw [ha]
    exact roundFloat32_example
  refine ⟨ha, by rw [ha]; norm_num, by rw [ha]; norm_num, ?_, hr, ?_⟩
  · rw [ha]
    unfold truncate
    rw [if_pos (by norm_num)]
    exact Int.floor_eq_iff.mpr ⟨by norm_num, by norm_num⟩
  · show toInt8 (truncate (roundFloat32 (GetAxis roundingBanks 0 * 127))) = 1
    rw [hr]
    unfold truncate
    rw [if_pos (by norm_num)]
    have : ⌊(1 : ℚ)⌋ = 1 := Int.floor_one
    rw [this]
    rfl

/-- C15, amended: the fields x, y, z, rz, rx, ry are taken from the global axes
0, 1, 2, 3, 4, 5 in that order, each as the float product of the axis value and
127 converted to an integer by truncation toward zero.  For an axis value
between -1 and 1: the float product `p` is within `1 / 2 ^ 18` of the exact
product and between -127 and 127; the field is the integer part of `p` toward
zero; it lies between -127 and 127; and it is the truncation of the exact
product or the next integer away from zero.  The value 1 gives 127, the value -1
gives -127, and an axis index at or beyond the total axis count gives 0. -/
theorem C15_hid_axis_scaling_float (Inputs : List InputBank) (H : Int) :
    ((MakeHidReport Inputs H).x = axisField Inputs 0 ∧
      (MakeHidReport Inputs H).y = axisField Inputs 1 ∧
      (MakeHidReport Inputs H).z = axisField Inputs 2 ∧
      (MakeHidReport Inputs H).rz = axisField Inputs 3 ∧
      (MakeHidReport Inputs H).rx = axisField Inputs 4 ∧
      (MakeHidReport Inputs H).ry = axisField Inputs 5) ∧
    (∀ n : Int, -1 ≤ GetAxis Inputs n → GetAxis Inputs n ≤ 1 →
      ∃ p : ℚ, p = roundFloat32 (GetAxis Inputs n * 127) ∧
        |p - GetAxis Inputs n * 127| ≤ 1 / 2 ^ 18 ∧
        -127 ≤ p ∧ p ≤ 127 ∧
        (0 ≤ p → 0 ≤ axisField Inputs n ∧ (axisField Inputs n : ℚ) ≤ p ∧
          p < axisField Inputs n + 1) ∧
        (p ≤ 0 → axisField Inputs n ≤ 0 ∧ p ≤ axisField Inputs n ∧
          (axisField Inputs n : ℚ) - 1 < p) ∧
        -127 ≤ axisField Inputs n ∧ axisField Inputs n ≤ 127 ∧
        (axisField Inputs n = truncate (GetAxis Inputs n * 127) ∨
          (0 ≤ GetAxis Inputs n ∧
            axisField Inputs n = truncate (GetAxis Inputs n * 127) + 1) ∨
          (GetAxis Inputs n ≤ 0 ∧
            axisField Inputs n = truncate (GetAxis Inputs n * 127) - 1))) ∧
    (∀ n : Int, GetAxis Inputs n = 1 → axisField Inputs n = 127) ∧
    (∀ n : Int, GetAxis Inputs n = -1 → axisField Inputs n = -127) ∧
    (∀ n : Int, (∀ b ∈ Inputs, 0 ≤ b.AxisCount) → 0 ≤ n → totalAxisCount Inputs ≤ n →
      axisField Inputs n = 0) := by
  refine ⟨⟨rfl, rfl, rfl, rfl, rfl, rfl⟩, ?_, ?_, ?_, ?_⟩
  · intro n hlo hhi
    have hr := axisField_of_range Inputs n (by linarith) (by linarith)
    have habs : |GetAxis Inputs n * 127| < 128 := by
      rw [abs_lt]
      constructor <;> linarith
    have hspec := truncate_spec (roundFloat32 (GetAxis Inputs n * 127))
    have hq := truncate_spec (GetAxis Inputs n * 127)
    refine ⟨_, rfl, roundFloat32_error _ habs, hr.2.1, hr.2.2.1, ?_, ?_, hr.2.2.2.1,
      hr.2.2.2.2, ?_⟩
    · intro hp
      rw [hr.1]
      exact hspec.1 hp
    · intro hp
      rw [hr.1]
      exact hspec.2 hp
    · rw [hr.1]
      by_cases h0 : 0 ≤ GetAxis Inputs n
      · have hq0 : 0 ≤ GetAxis Inputs n * 127 := by positivity
        obtain ⟨_, hq1, hq2⟩ := hq.1 hq0
        have hp0 : ((0 : Int) : ℚ) ≤ roundFloat32 (GetAxis Inputs n * 127) :=
          le_roundFloat32 _ habs 0 (by push_cast; exact hq0)
        have hplo := le_roundFloat32 _ habs (truncate (GetAxis Inputs n * 127)) hq1
        have hphi := roundFloat32_le _ habs (truncate (GetAxis Inputs n * 127) + 1)
          (by push_cast; linarith)
        push_cast at hp0 hphi
        obtain ⟨_, hs1, hs2⟩ := hspec.1 hp0
        have ha : truncate (GetAxis Inputs n * 127) ≤
            truncate (roundFloat32 (GetAxis Inputs n * 127)) := by
          have : ((truncate (GetAxis Inputs n * 127) : Int) : ℚ) <
              ((truncate (roundFloat32 (GetAxis Inputs n * 127)) + 1 : Int) : ℚ) := by
            push_cast; linarith
          have := Int.cast_lt.mp this
          omega
        have hb : truncate (roundFloat32 (GetAxis Inputs n * 127)) ≤
            truncate (GetAxis Inputs n * 127) + 1 := by
          have : ((truncate (roundFloat32 (GetAxis Inputs n * 127)) : Int) : ℚ) ≤
              ((truncate (GetAxis Inputs n * 127) + 1 : Int) : ℚ) := by
            push_cast; linarith
          exact Int.cast_le.mp this
        by_cases he : truncate (roundFloat32 (GetAxis Inputs n * 127)) =
            truncate (GetAxis Inputs n * 127)
        · left; exact he
        · right; left
          exact ⟨h0, by omega⟩
      · have hneg : GetAxis Inputs n ≤ 0 := le_of_lt (not_le.mp h0)
        have hq0 : GetAxis Inputs n * 127 ≤ 0 := by nlinarith
        obtain ⟨_, hq1, hq2⟩ := hq.2 hq0
        have hp0 : roundFloat32 (GetAxis Inputs n * 127) ≤ ((0 : Int) : ℚ) :=
          roundFloat32_le _ habs 0 (by push_cast; exact hq0)
        have hphi := roundFloat32_le _ habs (truncate (GetAxis Inputs n * 127)) hq1
        have hplo := le_roundFloat32 _ habs (truncate (GetAxis Inputs n * 127) - 1)
          (by push_cast; linarith)
        push_cast at hp0 hplo
        obtain ⟨_, hs1, hs2⟩ := hspec.2 hp0
        have ha : truncate (roundFloat32 (GetAxis Inputs n * 127)) ≤
            truncate (GetAxis Inputs n * 127) := by
          have : ((truncate (roundFloat32 (GetAxis Inputs n * 127)) - 1 : Int) : ℚ) <
              ((truncate (GetAxis Inputs n * 127) : Int) : ℚ) := by
            push_cast; linarith
          have := Int.cast_lt.mp this
          omega
        have hb : truncate (GetAxis Inputs n * 127) - 1 ≤
            truncate (roundFloat32 (GetAxis Inputs n * 127)) := by
          have : ((truncate (GetAxis Inputs n * 127) - 1 : Int) : ℚ) ≤
              ((truncate (roundFloat32 (GetAxis Inputs n * 127)) : Int) : ℚ) := by
            push_cast; linarith
          exact Int.cast_le.mp this
        by_cases he : truncate (roundFloat32 (GetAxis Inputs n * 127)) =
            truncate (GetAxis Inputs n * 127)
        · left; exact he
        · right; right
          exact ⟨hneg, by omega⟩
  · intro n h
    have hr := axisField_of_range Inputs n (by rw [h]; norm_num) (by rw [h]; norm_num)
    have habs : |GetAxis Inputs n * 127| < 128 := by rw [h]; norm_num
    have h1 := le_roundFloat32 _ habs 127 (by rw [h]; norm_num)
    have hp : roundFloat32 (GetAxis Inputs n * 127) = 127 :=
      le_antisymm hr.2.2.1 (by exact_mod_cast h1)
    rw [hr.1, hp]
    unfold truncate
    rw [if_pos (by norm_num)]
    exact Int.floor_eq_iff.mpr ⟨by norm_num, by norm_num⟩
  · intro n h
    have hr := axisField_of_range Inputs n (by rw [h]; norm_num) (by rw [h]; norm_num)
    have habs : |GetAxis Inputs n * 127| < 128 := by rw [h]; norm_num
    have h1 := roundFloat32_le _ habs (-127) (by rw [h]; norm_num)
    have hp : roundFloat32 (GetAxis Inputs n * 127) = -127 :=
      le_antisymm (by exact_mod_cast h1) hr.2.1
    rw [hr.1, hp]
    unfold truncate
    rw [if_neg (by norm_num)]
    exact Int.ceil_eq_iff.mpr ⟨by norm_num, by norm_num⟩
  · intro n hc h0 hle
    unfold axisField
    rw [GetAxis_beyond Inputs hc n h0 hle]
    have hz : roundFloat32 (0 * 127) = 0 := by simp [roundFloat32]
    rw [hz]
    have ht : truncate 0 = 0 := by simp [truncate]
    rw [ht]
    rfl

/-- Witness of the amended C15: on the example banks, whose axes 0 and 1 are 1
and -1 and which have no axis 2, the fields x, y, z are 127, -127 and 0. -/
theorem C15_hid_axis_scaling_float_witness :
    (MakeHidReport hatBanks 2).x = 127 ∧ (MakeHidReport hatBanks 2).y = -127 ∧
    (MakeHidReport hatBanks 2).z = 0 :=
  ⟨(C15_hid_axis_scaling_float hatBanks 2).2.2.1 0 (by simp [GetAxis, hatBanks]),
    (C15_hid_axis_scaling_float hatBanks 2).2.2.2.1 1 (by simp [GetAxis, hatBanks]),
    (C15_hid_axis_scaling_float hatBanks 2).2.2.2.2 2 (by decide) (by decide) (by decide)⟩

/-! ## Polling of the motion sensors -/

theorem UpdateMpusLoop_length (Mpus : List MpuPoll) :
    ∀ flag : Bool, (UpdateMpusLoop flag Mpus).length = Mpus.length := by
  induction Mpus with
  | nil => intro flag; rfl
  | cons m rest ih =>
    intro flag
    simp only [UpdateMpusLoop, List.length_cons, ih]

/-- The loop over a list in two parts: the second part starts with
`mpuInitialized` true exactly when it was true before or a sensor of the first
part became present in its pass. -/
theorem UpdateMpusLoop_append (rest : List MpuPoll) (pre : List MpuPoll) :
    ∀ flag : Bool,
      UpdateMpusLoop flag (pre ++ rest) =
        UpdateMpusLoop flag pre ++
          UpdateMpusLoop
            (flag || (List.zip pre (UpdateMpusLoop flag pre)).any
              (fun p => becamePresent p.1 p.2))
            rest := by
  induction pre with
  | nil => intro flag; simp [UpdateMpusLoop]
  | cons m pre ih =>
    intro flag
    have step : ∀ l : List MpuPoll, UpdateMpusLoop flag (m :: l) =
        { Polled := !flag || m.Present,
          Present := if (!flag || m.Present) = true then m.PresentAfterUpdate
            else m.Present } ::
          UpdateMpusLoop
            (flag || (!m.Present &&
              (if (!flag || m.Present) = true then m.PresentAfterUpdate else m.Present))) l := by
      intro l
      simp only [UpdateMpusLoop]
      congr 2
      cases flag <;> cases m.Present <;> cases m.PresentAfterUpdate <;> rfl
    rw [List.cons_append, step, step, ih]
    simp only [List.cons_append, List.zip_cons_cons, List.any_cons, becamePresent,
      Bool.or_assoc]

/-- C16, as stated, fails: with the first sensor marked present before and
after its poll, the second sensor, which is not marked present, is polled all
the same. -/
theorem C16_motion_sensor_polling_counterexample :
    examplePolls.map MpuPoll.Present = [true, false] ∧
    UpdateMpus examplePolls =
      [{ Polled := true, Present := true }, { Polled := true, Present := false }] := by
  decide

/-- C16, amended: in the loop of `GamepadController::Update`, the sensor after
the sensors `pre` is polled exactly when it is itself marked present or none of
the sensors `pre` has changed from not present to present in its own pass of
this same loop; the passes over `pre` do not depend on what follows. -/
theorem C16_polling_skips_only_after_new_sensor (pre : List MpuPoll) (mpu : MpuPoll)
    (post : List MpuPoll) :
    (UpdateMpus (pre ++ mpu :: post)).take pre.length = UpdateMpus pre ∧
    ∃ r : MpuPolled,
      (UpdateMpus (pre ++ mpu :: post))[pre.length]? = some r ∧
      (r.Polled = true ↔
        (mpu.Present = true ∨
          ∀ p ∈ List.zip pre (UpdateMpus pre), becamePresent p.1 p.2 = false)) := by
  have happ := UpdateMpusLoop_append (mpu :: post) pre false
  have hlen := UpdateMpusLoop_length pre false
  unfold UpdateMpus
  rw [happ]
  constructor
  · rw [← hlen, List.take_left]
  · rw [List.getElem?_append_right (by rw [hlen]), hlen, Nat.sub_self]
    simp only [UpdateMpusLoop, Bool.false_or, List.getElem?_cons_zero]
    refine ⟨_, rfl, ?_⟩
    simp only [Bool.or_eq_true, Bool.not_eq_true_eq_eq_false, List.any_eq_false]
    constructor
    · rintro (h | h)
      · right
        intro p hp
        simpa using h p hp
      · left; exact h
    · rintro (h | h)
      · right; exact h
      · left
        intro p hp
        simpa using h p hp

/-! ## Haptic dispatch beyond the actuators -/

/-- C18: `AddHapticCommand` does not check the actuator index against the
actuator count 2.  For every payload longer than 12 bytes whose byte 0 has a bit
`b` from 2 to 7 set, an `Insert` is addressed to index `b`, which is at least
the actuator count; and every `Insert` is addressed to the number of its bit,
whatever the actuator count. -/
theorem C18_haptic_index_unchecked (data : List (Fin 256)) (hlen : 12 < data.length)
    (b : Nat) (hlo : 2 ≤ b) (hhi : b < 8) (hbit : (byteAt data 0).testBit b = true) :
    (b, decodedCommand data) ∈ AddHapticCommand recordInsert [] data ∧
    HapticCount ≤ b ∧
    (∃ entry ∈ AddHapticCommand recordInsert [] data, HapticCount ≤ entry.1) := by
  rw [AddHapticCommand_calls data hlen]
  have hmem : (b, decodedCommand data) ∈
      ((List.range 8).filter (fun b => (byteAt data 0).testBit b)).map
        (fun b => (b, decodedCommand data)) := by
    simp only [List.mem_map, List.mem_filter, List.mem_range]
    exact ⟨b, ⟨hhi, hbit⟩, rfl⟩
  have hcount : HapticCount ≤ b := hlo
  exact ⟨hmem, hcount, (b, decodedCommand data), hmem, hcount⟩

/-- Witness of C18: the example payload, with mask 5, addresses index 2. -/
theorem C18_haptic_index_unchecked_witness :
    12 < examplePayload.length ∧ (byteAt examplePayload 0).testBit 2 = true ∧
    (2, decodedCommand examplePayload) ∈ AddHapticCommand recordInsert [] examplePayload ∧
    HapticCount ≤ 2 :=
  ⟨by decide, by decide,
    (C18_haptic_index_unchecked examplePayload (by decide) 2 (by decide) (by decide)
      (by decide)).1,
    (C18_haptic_index_unchecked examplePayload (by decide) 2 (by decide) (by decide)
      (by decide)).2.1⟩

end TinyCon
